import Mathlib

/-!
Verification of the Overlay Synchronization Engine of SafeStreets-AI
(src/app/src/App.jsx, the current `MapView` variant with zoom-bucketed
heat sampling).

Modelling conventions:
* JavaScript numbers are rationals (`ℚ`).  A value whose numeric coercion
  is `NaN` or `±Infinity` (so `isFinite` fails) is modelled as `none` in an
  `Option ℚ`; a missing / null field is `none` at the field level.
* The inline `haversine` helper uses real trigonometry, so the sampler is
  parameterised by an arbitrary distance function `dist`; every structural
  property proved here holds for any such function.
* Stateful map code is modelled by explicit state passing over `MapState`.
-/

set_option maxRecDepth 2000

namespace SafeStreets

/-- A raw risk edge as delivered by the backend `/heatmap` endpoint.
`from` / `to` are `[lat, lon]` arrays (modelled entrywise, `none` for a
non-finite coercion), `risk_score` a number (`none` when its coercion is
`NaN`, so that `+seg.risk_score || 0` yields `0`). -/
structure Seg where
  from' : Option (List (Option ℚ))
  to' : Option (List (Option ℚ))
  risk_score : Option ℚ
deriving DecidableEq, Repr

/-- One emitted heat feature: `properties.mag` / `properties.risk` and the
GeoJSON `coordinates` pair, in `[lon, lat]` order. -/
structure HeatPoint where
  mag : ℚ
  risk : ℚ
  coord : ℚ × ℚ
deriving DecidableEq, Repr

/-- `spacingForZoom` (App.jsx): linear sampling spacing in metres chosen
from the zoom; `none` models the `Infinity` sentinel of the coarsest
bucket ("single midpoint only"). -/
def spacingForZoom (zoom : ℚ) : Option ℚ :=
  if zoom ≥ 16 then some 8
  else if zoom ≥ 15 then some 30
  else if zoom ≥ 14 then some 60
  else if zoom ≥ 12 then some 200
  else if zoom ≥ 10 then some 300
  else none

/-- `zoomBucket` (App.jsx): stable zoom bands keying the resample cache. -/
def zoomBucket (zoom : ℚ) : String :=
  if zoom ≥ 16 then "z16+"
  else if zoom ≥ 15 then "z15"
  else if zoom ≥ 14 then "z14"
  else if zoom ≥ 12 then "z12-13"
  else if zoom ≥ 10 then "z10-11"
  else "z<10"

/-- `Math.max(0, Math.min(1, +seg.risk_score || 0))`: the risk weight,
with a missing or `NaN`-coercing `risk_score` falling back to `0`. -/
def clampRisk (r : Option ℚ) : ℚ := max 0 (min 1 (r.getD 0))

/-- The body of the `for (const seg of list)` loop of `buildHeatGeoJSON`
(App.jsx): the heat points emitted for one raw edge, given the spacing
`step` chosen for the current zoom (`none` = `Infinity`).  Malformed or
non-finite edges produce `[]` (the `continue` branches); `dist` abstracts
the inline `haversine` helper. -/
def segPoints (dist : ℚ → ℚ → ℚ → ℚ → ℚ) (step : Option ℚ) :
    Option Seg → List HeatPoint
  | none => []
  | some seg =>
    match seg.from', seg.to' with
    | some (fLat? :: fLon? :: _), some (tLat? :: tLon? :: _) =>
      match fLat?, fLon?, tLat?, tLon? with
      | some fromLat, some fromLon, some toLat, some toLon =>
        let risk := clampRisk seg.risk_score
        match step with
        | none =>
          [⟨risk, risk, ((fromLon + toLon) / 2, (fromLat + toLat) / 2)⟩]
        | some st =>
          let d := dist fromLat fromLon toLat toLon
          let n : ℤ := max 1 ⌊d / st⌋
          ((List.range n.toNat).map fun (i : ℕ) =>
            let t : ℚ := ((i : ℚ) + 1) / ((n : ℚ) + 1)
            ⟨risk, risk,
              (fromLon + (toLon - fromLon) * t,
               fromLat + (toLat - fromLat) * t)⟩)
          ++ (if n = 0 then
                [⟨risk, risk, ((fromLon + toLon) / 2, (fromLat + toLat) / 2)⟩]
              else [])
      | _, _, _, _ => []
    | _, _ => []

/-- `buildHeatGeoJSON(list, zoom)` (App.jsx): per-edge samples concatenated
in input order, the spacing fixed once from the zoom. -/
def buildHeatGeoJSON (dist : ℚ → ℚ → ℚ → ℚ → ℚ)
    (list : List (Option Seg)) (zoom : ℚ) : List HeatPoint :=
  list.flatMap (segPoints dist (spacingForZoom zoom))

/-- An edge the sampler considers well formed: a present `from` and `to`
array with at least two entries each, the first two of each finite. -/
def wellFormedSeg (oseg : Option Seg) : Prop :=
  ∃ seg fLat fLon tLat tLon fr tr, oseg = some seg ∧
    seg.from' = some (some fLat :: some fLon :: fr) ∧
    seg.to' = some (some tLat :: some tLon :: tr)

/-- The spacing only depends on the zoom bucket: two zooms in the same
band select the same branch of `spacingForZoom`. -/
theorem spacingForZoom_congr {z1 z2 : ℚ} (h : zoomBucket z1 = zoomBucket z2) :
    spacingForZoom z1 = spacingForZoom z2 := by
  unfold zoomBucket at h
  unfold spacingForZoom
  split_ifs at h ⊢ <;> simp_all

/-- Claim C2: for an edge with finite numeric coordinates and a zoom whose
bucket is not the coarsest (finite spacing `st`), the sampler emits exactly
`n = max(1, floor(dist / st))` interior points; the `i`-th (0-based) sits at
parameter `t = (i+1)/(n+1)` along the segment, carries the edge's
`risk_score` clamped to `[0,1]` as weight, and its coordinate pair is in
`[lon, lat]` order given `[lat, lon]` input. -/
theorem C2_interior_points (dist : ℚ → ℚ → ℚ → ℚ → ℚ) (seg : Seg)
    (fromLat fromLon toLat toLon : ℚ) (fr tr : List (Option ℚ))
    (zoom st : ℚ)
    (hf : seg.from' = some (some fromLat :: some fromLon :: fr))
    (ht : seg.to' = some (some toLat :: some toLon :: tr))
    (hst : spacingForZoom zoom = some st) :
    (segPoints dist (spacingForZoom zoom) (some seg)).length
        = (max 1 ⌊dist fromLat fromLon toLat toLon / st⌋).toNat ∧
    ∀ i (hi : i < (segPoints dist (spacingForZoom zoom) (some seg)).length),
      (segPoints dist (spacingForZoom zoom) (some seg))[i] =
        ⟨max 0 (min 1 (seg.risk_score.getD 0)),
         max 0 (min 1 (seg.risk_score.getD 0)),
         (fromLon + (toLon - fromLon) *
            (((i : ℚ) + 1) /
              (((max 1 ⌊dist fromLat fromLon toLat toLon / st⌋ : ℤ) : ℚ) + 1)),
          fromLat + (toLat - fromLat) *
            (((i : ℚ) + 1) /
              (((max 1 ⌊dist fromLat fromLon toLat toLon / st⌋ : ℤ) : ℚ) + 1)))⟩ := by
  have hn : (max 1 ⌊dist fromLat fromLon toLat toLon / st⌋ : ℤ) ≠ 0 := by
    have := le_max_left (1 : ℤ) ⌊dist fromLat fromLon toLat toLon / st⌋
    omega
  obtain ⟨f, t, r⟩ := seg
  simp only at hf ht
  subst hf ht
  rw [hst]
  simp only [segPoints, clampRisk, if_neg hn, List.append_nil,
    List.length_map, List.length_range]
  refine ⟨trivial, fun i hi => ?_⟩
  simp only [List.getElem_map, List.getElem_range]

/-- Claim C3: every well-formed edge yields at least one heat point at
every zoom, and a missing / malformed / non-finite edge yields the empty
list (the sampler is a total function: skipping is silent, not an error). -/
theorem C3_min_density_and_silent_skip (dist : ℚ → ℚ → ℚ → ℚ → ℚ)
    (zoom : ℚ) :
    (∀ oseg, wellFormedSeg oseg →
        1 ≤ (segPoints dist (spacingForZoom zoom) oseg).length) ∧
    (∀ oseg, ¬ wellFormedSeg oseg →
        segPoints dist (spacingForZoom zoom) oseg = []) := by
  constructor
  · rintro oseg ⟨seg, fLat, fLon, tLat, tLon, fr, tr, rfl, hf, ht⟩
    obtain ⟨f, t, r⟩ := seg
    simp only at hf ht
    subst hf ht
    cases hsp : spacingForZoom zoom with
    | none => simp [segPoints]
    | some st =>
      have hn : (max 1 ⌊dist fLat fLon tLat tLon / st⌋ : ℤ) ≠ 0 := by
        have := le_max_left (1 : ℤ) ⌊dist fLat fLon tLat tLon / st⌋
        omega
      have h1 : (1 : ℤ) ≤ max 1 ⌊dist fLat fLon tLat tLon / st⌋ :=
        le_max_left _ _
      simp only [segPoints, if_neg hn, List.append_nil, List.length_map,
        List.length_range]
      omega
  · rintro oseg hbad
    match oseg with
    | none => rfl
    | some ⟨none, t, r⟩ => rfl
    | some ⟨some [], t, r⟩ => rfl
    | some ⟨some [x], t, r⟩ => rfl
    | some ⟨some (x :: y :: fr), none, r⟩ => rfl
    | some ⟨some (x :: y :: fr), some [], r⟩ => rfl
    | some ⟨some (x :: y :: fr), some [z], r⟩ => rfl
    | some ⟨some (none :: y :: fr), some (z :: w :: tr), r⟩ => rfl
    | some ⟨some (some a :: none :: fr), some (z :: w :: tr), r⟩ => rfl
    | some ⟨some (some a :: some b :: fr), some (none :: w :: tr), r⟩ => rfl
    | some ⟨some (some a :: some b :: fr), some (some c :: none :: tr), r⟩ =>
      rfl
    | some ⟨some (some a :: some b :: fr), some (some c :: some d :: tr), r⟩ =>
      exact absurd ⟨_, a, b, c, d, fr, tr, rfl, rfl, rfl⟩ hbad

/-- Claim C4: in the coarsest bucket (zoom below 10, `Infinity` spacing
sentinel) every well-formed edge yields exactly one point, the arithmetic
midpoint of its endpoints, carrying the clamped risk weight. -/
theorem C4_coarsest_single_midpoint (dist : ℚ → ℚ → ℚ → ℚ → ℚ) (seg : Seg)
    (fromLat fromLon toLat toLon : ℚ) (fr tr : List (Option ℚ)) (zoom : ℚ)
    (hf : seg.from' = some (some fromLat :: some fromLon :: fr))
    (ht : seg.to' = some (some toLat :: some toLon :: tr))
    (hz : zoom < 10) :
    segPoints dist (spacingForZoom zoom) (some seg) =
      [⟨max 0 (min 1 (seg.risk_score.getD 0)),
        max 0 (min 1 (seg.risk_score.getD 0)),
        ((fromLon + toLon) / 2, (fromLat + toLat) / 2)⟩] := by
  have hsp : spacingForZoom zoom = none := by
    unfold spacingForZoom
    rw [if_neg (by linarith : ¬ zoom ≥ 16), if_neg (by linarith : ¬ zoom ≥ 15),
      if_neg (by linarith : ¬ zoom ≥ 14), if_neg (by linarith : ¬ zoom ≥ 12),
      if_neg (by linarith : ¬ zoom ≥ 10)]
  obtain ⟨f, t, r⟩ := seg
  simp only at hf ht
  subst hf ht
  rw [hsp]
  simp [segPoints, clampRisk]

/-- Claim C5: sampling is deterministic and bucket-stable — two zooms in
the same bucket produce identical output for every edge list. -/
theorem C5_bucket_stable (dist : ℚ → ℚ → ℚ → ℚ → ℚ)
    (list : List (Option Seg)) (z1 z2 : ℚ)
    (hb : zoomBucket z1 = zoomBucket z2) :
    buildHeatGeoJSON dist list z1 = buildHeatGeoJSON dist list z2 := by
  unfold buildHeatGeoJSON
  rw [spacingForZoom_congr hb]

/-- A fixed distance function standing in for the haversine helper in
concrete evaluations: 1100 metres for every pair of endpoints. -/
def distW : ℚ → ℚ → ℚ → ℚ → ℚ := fun _ _ _ _ => 1100

/-- A concrete well-formed backend edge used by the witnesses. -/
def segW : Seg :=
  ⟨some [some 40, some (-73)], some [some (401/10), some (-73)], some (1/2)⟩

/-- Witness for C2 at a concrete input: zoom 16 gives spacing 8, and a
1100 m edge yields `max(1, floor(1100/8)) = 137` interior points. -/
theorem C2_interior_points_witness :
    (segPoints distW (spacingForZoom 16) (some segW)).length = 137 := by
  have h := (C2_interior_points distW segW 40 (-73) (401/10) (-73) [] []
    16 8 rfl rfl (by decide)).1
  have hfl : ⌊distW 40 (-73) (401/10) (-73) / 8⌋ = (137 : ℤ) := by
    norm_num [distW]
  rw [h, hfl]
  decide

/-- Witness for C3 at concrete inputs: the concrete edge yields at least
one point at zoom 12, and a null edge yields none. -/
theorem C3_witness :
    1 ≤ (segPoints distW (spacingForZoom 12) (some segW)).length ∧
    segPoints distW (spacingForZoom 12) none = [] := by
  constructor
  · exact (C3_min_density_and_silent_skip distW 12).1 (some segW)
      ⟨segW, 40, -73, 401/10, -73, [], [], rfl, rfl, rfl⟩
  · exact (C3_min_density_and_silent_skip distW 12).2 none
      (by simp [wellFormedSeg])

/-- Witness for C4 at a concrete input: at zoom 5 the concrete edge yields
exactly its midpoint with weight 1/2. -/
theorem C4_coarsest_witness :
    segPoints distW (spacingForZoom 5) (some segW) =
      [⟨1/2, 1/2, (-73, 801/20)⟩] := by
  have h := C4_coarsest_single_midpoint distW segW 40 (-73) (401/10) (-73)
    [] [] 5 rfl rfl (by norm_num)
  rw [h]
  simp only [segW, Option.getD_some]
  norm_num

/-- Witness for C5 at a concrete input: zooms 12 and 13 share the
`z12-13` bucket and give identical samples. -/
theorem C5_witness :
    buildHeatGeoJSON distW [some segW] 12 =
      buildHeatGeoJSON distW [some segW] 13 :=
  C5_bucket_stable distW [some segW] 12 13 (by norm_num [zoomBucket])

/-! ## Style values, layers and helpers -/

/-- A JSON-ish paint/layout property value. -/
inductive JVal where
  | s : String → JVal
  | n : ℚ → JVal
  | b : Bool → JVal
  | arr : List JVal → JVal

/-- One entry of `style.layers`: id, type and the paint/layout objects as
association lists (JS objects have unique keys). -/
structure StyleLayer where
  id : String
  type : String
  paint : List (String × JVal)
  layout : List (String × JVal)

/-- `map.setPaintProperty` / `map.setLayoutProperty` on one property
object: overwrite the key when present, else add it. -/
def setProp (ps : List (String × JVal)) (k : String) (v : JVal) :
    List (String × JVal) :=
  if (ps.lookup k).isSome then
    ps.map fun p => if p.1 = k then (k, v) else p
  else ps ++ [(k, v)]

/-- Fold a recorded property object onto a live one key by key (the
`Object.entries(...).forEach(([k, v]) => map.setXProperty(id, k, v))`
loops of `upsertHeatLayer` and `removeHackopolyTheme`). -/
def applyProps (src dst : List (String × JVal)) : List (String × JVal) :=
  src.foldl (fun ps kv => setProp ps kv.1 kv.2) dst

/-- `map.getLayer(id)` over the style's layer list (mapbox layer ids are
unique, which the theorems assume as a `Nodup` hypothesis). -/
def getL (ls : List StyleLayer) (i : String) : Option StyleLayer :=
  ls.find? fun l => l.id == i

/-- Is `pre` a leading run of `l`? (character-list helper). -/
def startsL : List Char → List Char → Bool
  | [], _ => true
  | _ :: _, [] => false
  | a :: as, b :: bs => a == b && startsL as bs

/-- Does `needle` occur anywhere in `hay`? (models `id.includes(...)` and
the regex substring tests). -/
def occursIn (needle : List Char) : List Char → Bool
  | [] => startsL needle []
  | c :: rest => startsL needle (c :: rest) || occursIn needle rest

/-- Lower-cased character list of an id (models `id.toLowerCase()`). -/
def lowerId (s : String) : List Char := s.data.map Char.toLower

/-- `/sky|fog/i.test(l.id)`: case-insensitive substring test. -/
def skyFogId (s : String) : Bool :=
  occursIn "sky".data (lowerId s) || occursIn "fog".data (lowerId s)

/-- `layers.find(l => l.type === 'symbol' && l.layout?.['text-field'])`
(truthiness of the recorded `text-field` value modelled as presence). -/
def firstSymbol (ls : List StyleLayer) : Option StyleLayer :=
  ls.find? fun l => l.type == "symbol" && (l.layout.lookup "text-field").isSome

/-- `map.addLayer(spec, beforeId)`: insert right before the layer with id
`b` (appended at the end when `b` is absent). -/
def insertBeforeId (ls : List StyleLayer) (b : String) (l : StyleLayer) :
    List StyleLayer :=
  match ls with
  | [] => [l]
  | x :: xs => if x.id == b then l :: x :: xs else x :: insertBeforeId xs b l

/-- `map.addLayer(spec, beforeId?)` with the optional beforeId. -/
def addLayerOpt (ls : List StyleLayer) (before : Option String)
    (l : StyleLayer) : List StyleLayer :=
  match before with
  | none => ls ++ [l]
  | some b => insertBeforeId ls b l

/-- `map.moveLayer(i, b)`: re-insert layer `i` just before layer `b`. -/
def moveLayerBefore (ls : List StyleLayer) (i b : String) : List StyleLayer :=
  match getL ls i with
  | none => ls
  | some l => insertBeforeId (ls.filter fun x => !(x.id == i)) b l

/-- `HEAT_PAINT` (App.jsx): the explicit heat paint constants. -/
def HEAT_PAINT : List (String × JVal) :=
  [("heatmap-radius", .arr [.s "interpolate", .arr [.s "linear"],
      .arr [.s "zoom"], .n 10, .n 10, .n 12, .n 18, .n 14, .n 26,
      .n 16, .n 34]),
   ("heatmap-opacity", .n (85/100)),
   ("heatmap-weight", .arr [.s "coalesce",
      .arr [.s "to-number", .arr [.s "get", .s "mag"]], .n 1]),
   ("heatmap-intensity", .arr [.s "interpolate", .arr [.s "linear"],
      .arr [.s "zoom"], .n 10, .n (7/10), .n 14, .n (12/10)]),
   ("heatmap-color", .arr [.s "interpolate", .arr [.s "linear"],
      .arr [.s "heatmap-density"], .n 0, .s "rgba(0,0,0,0)",
      .n (1/10), .s "#2c7fb8", .n (3/10), .s "#41b6c4",
      .n (5/10), .s "#7fcdbb", .n (7/10), .s "#c7e9b4",
      .n (85/100), .s "#fed976", .n 1, .s "#f03b20"])]

/-- Step 1 of the repaint loop: background colour. -/
def themeBackground (l : StyleLayer) : StyleLayer :=
  if l.type == "background" then
    { l with paint := setProp l.paint "background-color" (.s "#d5f4e6") }
  else l

/-- Step 2 of the repaint loop: water fill. -/
def themeWater (l : StyleLayer) : StyleLayer :=
  if occursIn "water".data (lowerId l.id) && l.type == "fill" then
    { l with paint := setProp l.paint "fill-color" (.s "#7ec8e3") }
  else l

/-- Step 3 of the repaint loop: parks / landuse fills and outlines. -/
def themePark (l : StyleLayer) : StyleLayer :=
  if (occursIn "park".data (lowerId l.id) ||
      occursIn "landuse".data (lowerId l.id) ||
      occursIn "pitch".data (lowerId l.id) ||
      occursIn "grass".data (lowerId l.id)) && l.type == "fill" then
    { l with paint := setProp (setProp l.paint "fill-color" (.s "#7fc97f"))
               "fill-outline-color" (.s "#2d5016") }
  else l

/-- Step 4 of the repaint loop: building fills and outlines. -/
def themeBuilding (l : StyleLayer) : StyleLayer :=
  if occursIn "building".data (lowerId l.id) && l.type == "fill" then
    { l with paint := setProp (setProp l.paint "fill-color" (.s "#f4e8d0"))
               "fill-outline-color" (.s "#D62828") }
  else l

/-- Step 5 of the repaint loop: road line colour. -/
def themeRoad (l : StyleLayer) : StyleLayer :=
  if (occursIn "road".data (lowerId l.id) ||
      occursIn "street".data (lowerId l.id) ||
      occursIn "highway".data (lowerId l.id) ||
      occursIn "tunnel".data (lowerId l.id) ||
      occursIn "bridge".data (lowerId l.id)) && l.type == "line" then
    { l with paint := setProp l.paint "line-color" (.s "#555555") }
  else l

/-- Step 6 of the repaint loop: symbol text colours and font. -/
def themeSymbol (l : StyleLayer) : StyleLayer :=
  if l.type == "symbol" then
    { l with
      paint := setProp (setProp l.paint "text-color" (.s "#000000"))
        "text-halo-color" (.s "#ffffff"),
      layout := setProp l.layout "text-font"
        (.arr [.s "DIN Pro Bold", .s "Arial Unicode MS Bold"]) }
  else l

/-- The per-layer body of the repaint loop in `patchTheme`
(`applyHackopolyTheme`): independent `if`s keyed by the lower-cased id and
the layer type, applied in source order.  (The JS computes
`id = layer.id.toLowerCase()` once; as no step changes the id, the
per-step recomputation of `lowerId l.id` is equivalent.) -/
def themeLayer (l : StyleLayer) : StyleLayer :=
  themeSymbol (themeRoad (themeBuilding (themePark
    (themeWater (themeBackground l)))))

/-- The `add-hackopoly-buildings` 3D extrusion layer added by
`patchTheme`. -/
def hackBuildingsLayer : StyleLayer :=
  { id := "add-hackopoly-buildings", type := "fill-extrusion",
    paint :=
      [("fill-extrusion-color", .arr [.s "case",
          .arr [.s ">=", .arr [.s "get", .s "height"], .n 50],
          .s "rgba(214, 40, 40, 0.6)", .s "rgba(77, 139, 49, 0.6)"]),
       ("fill-extrusion-opacity", .n 1),
       ("fill-extrusion-height", .arr [.s "interpolate", .arr [.s "linear"],
          .arr [.s "zoom"], .n 15, .n 0, .n (1505/100),
          .arr [.s "get", .s "height"]]),
       ("fill-extrusion-base", .arr [.s "interpolate", .arr [.s "linear"],
          .arr [.s "zoom"], .n 15, .n 0, .n (1505/100),
          .arr [.s "get", .s "min_height"]])],
    layout := [] }

/-! ## Route geometry -/

/-- A GeoJSON geometry as far as `getLineCoords` inspects it. -/
inductive Geometry where
  | line : List (ℚ × ℚ) → Geometry
  | multi : List (List (ℚ × ℚ)) → Geometry
  | other : Geometry

/-- A value handed to `draw-routes`: a bare geometry, a Feature (possibly
with a null geometry), or a FeatureCollection (listing each contained
feature's geometry). -/
inductive Geo where
  | geom : Geometry → Geo
  | feature : Option Geometry → Geo
  | featureCollection : List (Option Geometry) → Geo

/-! ## The engine state -/

/-- The engine state: the mapbox map surface plus the module-level caches
and the component's `heatRef`.  `samples` counts executions of the
`buildHeatGeoJSON` recomputation writes (an instrumentation counter of the
model used to bound resampling); DOM side effects (container classes,
style tags, logging) are outside the model. -/
structure MapState where
  layers : List StyleLayer
  styleLoaded : Bool
  hackopolyApplied : Bool
  originalStyleLayers : Option (List StyleLayer)
  originalCamera : Option (ℚ × ℚ)
  bearing : ℚ
  pitch : ℚ
  rotateEnabled : Bool
  fogSet : Bool
  heatRef : Bool
  mapHeatOn : Option Bool
  zoom : ℚ
  heatSourceExists : Bool
  heatSourceData : List HeatPoint
  rawCache : Option (List (Option Seg))
  geoCache : Option (List HeatPoint)
  lastBucket : Option String
  samples : ℕ
  lastFitBounds : Option (((ℚ × ℚ) × (ℚ × ℚ)) × ℚ × ℚ)
  routeEndMarker : Option (ℚ × ℚ)
  destinationMarker : Option (ℚ × ℚ)
  fastestSrc : Bool
  safestSrc : Bool
  weightedSrc : Bool
  fastestData : Option Geo
  safestData : Option Geo
  weightedData : Option Geo

/-- `ensureHeatSource` (App.jsx): create the heat source if missing; when
raw edges are already cached, sample them for the current zoom and record
the bucket.  (The `__HEAT_GEO_LOADING.then` continuation fires
asynchronously and is outside the synchronous model.) -/
def ensureHeatSource (dist : ℚ → ℚ → ℚ → ℚ → ℚ) (m : MapState) : MapState :=
  if m.heatSourceExists then m
  else
    let m1 := { m with heatSourceExists := true, heatSourceData := [] }
    match m1.rawCache with
    | some raw =>
      let geo := buildHeatGeoJSON dist raw m1.zoom
      { m1 with geoCache := some geo,
                lastBucket := some (zoomBucket m1.zoom),
                heatSourceData := geo, samples := m1.samples + 1 }
    | none => m1

/-- The heat layer as created by a fresh `map.addLayer` call in
`upsertHeatLayer`. -/
def mkHeatLayer (visible : Bool) : StyleLayer :=
  { id := "risk-heat", type := "heatmap",
    layout := [("visibility", .s (if visible then "visible" else "none"))],
    paint := HEAT_PAINT }

/-- The existing-layer branch of `upsertHeatLayer`: re-apply every
`HEAT_PAINT` entry and set the visibility layout property. -/
def heatReassert (visible : Bool) (l : StyleLayer) : StyleLayer :=
  { l with paint := applyProps HEAT_PAINT l.paint,
           layout := setProp l.layout "visibility"
             (.s (if visible then "visible" else "none")) }

/-- The layer-list part of `upsertHeatLayer`: add or re-assert the heat
layer, then move it below the first symbol layer carrying a text-field. -/
def heatLayersFn (visible : Bool) (ls : List StyleLayer) : List StyleLayer :=
  let ls2 :=
    if (getL ls "risk-heat").isSome then
      ls.map fun (l : StyleLayer) =>
        if l.id == "risk-heat" then heatReassert visible l else l
    else ls ++ [mkHeatLayer visible]
  match firstSymbol ls2 with
  | some fs => moveLayerBefore ls2 "risk-heat" fs.id
  | none => ls2

/-- `upsertHeatLayer(map, visible)` (App.jsx): ensure the source, add the
layer when missing, otherwise re-apply `HEAT_PAINT` and set the
visibility; finally move the layer below the first symbol layer carrying
a text-field. -/
def upsertHeatLayer (dist : ℚ → ℚ → ℚ → ℚ → ℚ) (m : MapState)
    (visible : Bool) : MapState :=
  let m1 := ensureHeatSource dist m
  { m1 with layers := heatLayersFn visible m1.layers }

/-- `resampleHeatIfNeeded` (App.jsx): recompute the sampled points only
when the zoom bucket changed since the last render (or no sampled data
exists yet). -/
def resampleHeatIfNeeded (dist : ℚ → ℚ → ℚ → ℚ → ℚ) (m : MapState) :
    MapState :=
  if ¬ m.heatSourceExists ∨ m.rawCache = none then m
  else
    if m.lastBucket = some (zoomBucket m.zoom) ∧ m.geoCache.isSome then m
    else
      match m.rawCache with
      | some raw =>
        let geo := buildHeatGeoJSON dist raw m.zoom
        { m with geoCache := some geo,
                 lastBucket := some (zoomBucket m.zoom),
                 heatSourceData := geo, samples := m.samples + 1 }
      | none => m

/-- The sky/fog hiding step of `patchTheme`: set the visibility layout
property to `none` on every layer whose id matches `/sky|fog/i`. -/
def hideSkyFog (l : StyleLayer) : StyleLayer :=
  if skyFogId l.id then
    { l with layout := setProp l.layout "visibility" (.s "none") }
  else l

/-- `patchTheme` inside `applyHackopolyTheme` (App.jsx): set the fog, hide
sky/fog layers, fly to the fixed oblique camera, enable rotation, run the
semantic repaint loop, add the 3D buildings layer below the first label
layer of the captured list, and re-assert the heat layer. -/
def patchTheme (dist : ℚ → ℚ → ℚ → ℚ → ℚ) (m : MapState) : MapState :=
  let ls0 := m.layers
  let m0 := { m with fogSet := true }
  let m1 := { m0 with layers := m0.layers.map hideSkyFog }
  let m2 := { m1 with pitch := 60, bearing := -20, rotateEnabled := true }
  let m3 := { m2 with layers := m2.layers.map themeLayer }
  let labelId := (firstSymbol ls0).map StyleLayer.id
  let m4 :=
    if (getL m3.layers "add-hackopoly-buildings").isSome then m3
    else { m3 with layers := addLayerOpt m3.layers labelId hackBuildingsLayer }
  upsertHeatLayer dist m4 (m4.mapHeatOn.getD false)

/-- `applyHackopolyTheme` (App.jsx): the re-entrancy guard, the one-time
snapshot of layers and camera, then the patch — applied immediately when
the style is loaded (the `once('style.load')` deferral is asynchronous and
outside the synchronous model). -/
def applyHackopolyTheme (dist : ℚ → ℚ → ℚ → ℚ → ℚ) (m : MapState) :
    MapState :=
  if m.hackopolyApplied then m
  else
    let m1 := { m with hackopolyApplied := true }
    let m2 := if m1.originalStyleLayers.isSome then m1
      else { m1 with originalStyleLayers := some m1.layers }
    let m3 := if m2.originalCamera.isSome then m2
      else { m2 with originalCamera := some (m2.bearing, m2.pitch) }
    if m3.styleLoaded then patchTheme dist m3 else m3

/-- The restore step of `removeHackopolyTheme` for one live layer: write
every recorded paint/layout key of the snapshotted layer with the same id
back (layers not in the snapshot are left alone).  The JS id-keyed
`originalLayersMap` is modelled by `getL` on the snapshot list. -/
def restoreLayer (snap : List StyleLayer) (l : StyleLayer) : StyleLayer :=
  match getL snap l.id with
  | none => l
  | some orig =>
    { l with paint := applyProps orig.paint l.paint,
             layout := applyProps orig.layout l.layout }

/-- `removeHackopolyTheme` (App.jsx): drop the extrusion layer, restore
every snapshotted layer still present, restore and delete the camera
snapshot, disable rotation, and re-assert the heat layer.  The `catch`
fallback (wholesale `setStyle`) is unreachable in the total model. -/
def removeHackopolyTheme (dist : ℚ → ℚ → ℚ → ℚ → ℚ) (m : MapState) :
    MapState :=
  let m1 := { m with hackopolyApplied := false }
  let m2 := if (getL m1.layers "add-hackopoly-buildings").isSome then
      { m1 with layers := (m1.layers.filter fun (l : StyleLayer) =>
          !(l.id == "add-hackopoly-buildings")) }
    else m1
  let m3 := match m2.originalStyleLayers with
    | some snap =>
      let m2a := { m2 with layers := m2.layers.map (restoreLayer snap) }
      { m2a with originalStyleLayers := none }
    | none => m2
  let m4 := match m3.originalCamera with
    | some bp =>
      { m3 with bearing := bp.1, pitch := bp.2, originalCamera := none }
    | none => m3
  let m5 := { m4 with rotateEnabled := false }
  upsertHeatLayer dist m5 (m5.mapHeatOn.getD false)

/-- The `app:toggle-heat` handler (App.jsx): flip `heatRef`, mirror it on
the map, re-assert the heat layer, and when turning on resample for the
current bucket. -/
def onToggleHeat (dist : ℚ → ℚ → ℚ → ℚ → ℚ) (m : MapState) : MapState :=
  let hr := !m.heatRef
  let m1 := { m with heatRef := hr, mapHeatOn := some hr }
  let m2 := upsertHeatLayer dist m1 hr
  if hr then resampleHeatIfNeeded dist m2 else m2

/-- The `app:toggle-style` handler (App.jsx): mirror `heatRef` onto the
map, then activate or deactivate the theme from the external flag. -/
def onToggleStyle (dist : ℚ → ℚ → ℚ → ℚ → ℚ) (styleAlt : Bool)
    (m : MapState) : MapState :=
  let m1 := { m with mapHeatOn := some m.heatRef }
  if styleAlt then applyHackopolyTheme dist m1
  else removeHackopolyTheme dist m1

/-! ## Association-list lemmas -/

theorem lookup_map_overwrite_ne (ps : List (String × JVal)) {k k' : String}
    (v : JVal) (h : k' ≠ k) :
    (ps.map fun p => if p.1 = k then (k, v) else p).lookup k'
      = ps.lookup k' := by
  induction ps with
  | nil => rfl
  | cons p ps ih =>
    obtain ⟨a, b⟩ := p
    simp only [List.map_cons]
    by_cases hak : a = k
    · subst hak
      rw [if_pos rfl]
      simp only [List.lookup, beq_eq_false_iff_ne.mpr h]
      exact ih
    · rw [if_neg (by simpa using hak)]
      simp only [List.lookup]
      cases k' == a with
      | true => rfl
      | false => exact ih

theorem lookup_map_overwrite_self (ps : List (String × JVal)) {k : String}
    (v : JVal) (h : (ps.lookup k).isSome) :
    (ps.map fun p => if p.1 = k then (k, v) else p).lookup k = some v := by
  induction ps with
  | nil => simp [List.lookup] at h
  | cons p ps ih =>
    obtain ⟨a, b⟩ := p
    simp only [List.map_cons]
    by_cases hak : a = k
    · subst hak
      rw [if_pos rfl]
      simp [List.lookup]
    · rw [if_neg (by simpa using hak)]
      have hbk : (k == a) = false := beq_eq_false_iff_ne.mpr (Ne.symm hak)
      simp only [List.lookup, hbk] at h ⊢
      exact ih h

theorem lookup_append_single_ne (ps : List (String × JVal)) {k k' : String}
    (v : JVal) (h : k' ≠ k) :
    (ps ++ [(k, v)]).lookup k' = ps.lookup k' := by
  induction ps with
  | nil => simp [List.lookup, beq_eq_false_iff_ne.mpr h]
  | cons p ps ih =>
    obtain ⟨a, b⟩ := p
    simp only [List.cons_append, List.lookup]
    cases k' == a with
    | true => rfl
    | false => exact ih

theorem lookup_append_single_self (ps : List (String × JVal)) {k : String}
    (v : JVal) (h : ps.lookup k = none) :
    (ps ++ [(k, v)]).lookup k = some v := by
  induction ps with
  | nil => simp [List.lookup]
  | cons p ps ih =>
    obtain ⟨a, b⟩ := p
    simp only [List.cons_append, List.lookup] at h ⊢
    cases hka : k == a with
    | true => simp [hka] at h
    | false =>
      rw [hka] at h
      exact ih h

theorem lookup_setProp_self (ps : List (String × JVal)) (k : String)
    (v : JVal) : (setProp ps k v).lookup k = some v := by
  unfold setProp
  split
  case isTrue h => exact lookup_map_overwrite_self ps v h
  case isFalse h =>
    exact lookup_append_single_self ps v (Option.not_isSome_iff_eq_none.mp h)

theorem lookup_setProp_ne (ps : List (String × JVal)) {k k' : String}
    (v : JVal) (h : k' ≠ k) :
    (setProp ps k v).lookup k' = ps.lookup k' := by
  unfold setProp
  split
  case isTrue _ => exact lookup_map_overwrite_ne ps v h
  case isFalse _ => exact lookup_append_single_ne ps v h

theorem lookup_eq_none_of_not_key (ps : List (String × JVal)) {k : String}
    (h : k ∉ ps.map Prod.fst) : ps.lookup k = none := by
  induction ps with
  | nil => rfl
  | cons p ps ih =>
    obtain ⟨a, b⟩ := p
    simp only [List.map_cons, List.mem_cons] at h
    push_neg at h
    simp only [List.lookup, beq_eq_false_iff_ne.mpr h.1]
    exact ih h.2

theorem lookup_applyProps_none (src : List (String × JVal)) {k : String}
    (h : src.lookup k = none) :
    ∀ dst, (applyProps src dst).lookup k = dst.lookup k := by
  induction src with
  | nil => intro dst; rfl
  | cons p src ih =>
    obtain ⟨a, b⟩ := p
    intro dst
    simp only [applyProps, List.foldl_cons]
    by_cases hak : k = a
    · subst hak
      simp [List.lookup] at h
    · have hbk : (k == a) = false := beq_eq_false_iff_ne.mpr hak
      simp only [List.lookup, hbk] at h
      rw [show (List.foldl (fun ps kv => setProp ps kv.1 kv.2)
        (setProp dst a b) src) = applyProps src (setProp dst a b) from rfl]
      rw [ih h]
      exact lookup_setProp_ne dst b hak

theorem lookup_applyProps_recorded (src : List (String × JVal))
    (hk : (src.map Prod.fst).Nodup) {k : String} {v : JVal}
    (h : src.lookup k = some v) :
    ∀ dst, (applyProps src dst).lookup k = some v := by
  induction src with
  | nil => simp [List.lookup] at h
  | cons p src ih =>
    obtain ⟨a, b⟩ := p
    intro dst
    simp only [List.map_cons, List.nodup_cons] at hk
    simp only [applyProps, List.foldl_cons]
    by_cases hak : k = a
    · subst hak
      simp only [List.lookup, beq_self_eq_true] at h
      have htail : src.lookup k = none := lookup_eq_none_of_not_key _ hk.1
      have hres := lookup_applyProps_none src htail (setProp dst k b)
      rw [show (List.foldl (fun ps kv => setProp ps kv.1 kv.2)
        (setProp dst k b) src) = applyProps src (setProp dst k b) from rfl]
      rw [hres, lookup_setProp_self dst k b]
      simpa using h
    · have hbk : (k == a) = false := beq_eq_false_iff_ne.mpr hak
      simp only [List.lookup, hbk] at h
      exact ih hk.2 h _

/-! ## Layer-list lemmas -/

theorem getL_eq_some_id {ls : List StyleLayer} {i : String} {l : StyleLayer}
    (h : getL ls i = some l) : l.id = i := by
  have := List.find?_some h
  simpa [beq_iff_eq] using this

theorem getL_mem {ls : List StyleLayer} {i : String} {l : StyleLayer}
    (h : getL ls i = some l) : l ∈ ls :=
  List.mem_of_find?_eq_some h

theorem getL_map (f : StyleLayer → StyleLayer)
    (hf : ∀ l, (f l).id = l.id) (ls : List StyleLayer) (i : String) :
    getL (ls.map f) i = (getL ls i).map f := by
  induction ls with
  | nil => rfl
  | cons x xs ih =>
    simp only [List.map_cons, getL, List.find?_cons]
    rw [hf x]
    cases hx : x.id == i with
    | true => rfl
    | false => exact ih

theorem getL_filter_ne (ls : List StyleLayer) {e i : String} (h : i ≠ e) :
    getL (ls.filter fun x => !(x.id == e)) i = getL ls i := by
  induction ls with
  | nil => rfl
  | cons x xs ih =>
    simp only [List.filter_cons]
    by_cases hx : x.id = e
    · rw [if_neg (by simp [hx])]
      have hxi : (x.id == i) = false :=
        beq_eq_false_iff_ne.mpr (by rw [hx]; exact fun he => h he.symm)
      simp only [getL, List.find?_cons, hxi]
      exact ih
    · rw [if_pos (by simp [hx])]
      simp only [getL, List.find?_cons]
      cases x.id == i with
      | true => rfl
      | false => exact ih

theorem getL_filter_self (ls : List StyleLayer) (e : String) :
    getL (ls.filter fun x => !(x.id == e)) e = none := by
  induction ls with
  | nil => rfl
  | cons x xs ih =>
    simp only [List.filter_cons]
    by_cases hx : x.id = e
    · rw [if_neg (by simp [hx])]
      exact ih
    · rw [if_pos (by simp [hx])]
      simp only [getL, List.find?_cons, beq_eq_false_iff_ne.mpr hx]
      exact ih

theorem getL_insertBeforeId_ne (ls : List StyleLayer) (b : String)
    (x : StyleLayer) {i : String} (h : x.id ≠ i) :
    getL (insertBeforeId ls b x) i = getL ls i := by
  induction ls with
  | nil =>
    simp [insertBeforeId, getL, List.find?_cons, beq_eq_false_iff_ne.mpr h]
  | cons y ys ih =>
    simp only [insertBeforeId]
    split
    · simp only [getL, List.find?_cons, beq_eq_false_iff_ne.mpr h]
    · simp only [getL, List.find?_cons]
      cases y.id == i with
      | true => rfl
      | false => exact ih

theorem getL_insertBeforeId_self (ls : List StyleLayer) (b : String)
    (x : StyleLayer) (h : getL ls x.id = none) :
    getL (insertBeforeId ls b x) x.id = some x := by
  induction ls with
  | nil => simp [insertBeforeId, getL, List.find?_cons]
  | cons y ys ih =>
    have hy : (y.id == x.id) = false := by
      simp only [getL, List.find?_cons] at h
      cases hc : y.id == x.id with
      | true => rw [hc] at h; simp at h
      | false => rfl
    simp only [insertBeforeId]
    split
    · simp [getL, List.find?_cons, hy]
    · simp only [getL, List.find?_cons, hy]
      apply ih
      simpa [getL, List.find?_cons, hy] using h

theorem getL_append_single_some (ls : List StyleLayer) (x : StyleLayer)
    {i : String} {l : StyleLayer} (h : getL ls i = some l) :
    getL (ls ++ [x]) i = some l := by
  induction ls with
  | nil => simp [getL] at h
  | cons y ys ih =>
    simp only [getL, List.find?_cons, List.cons_append] at h ⊢
    cases hc : y.id == i with
    | true => rw [hc] at h; simpa [hc] using h
    | false =>
      rw [hc] at h
      exact ih h

theorem getL_append_single_none (ls : List StyleLayer) (x : StyleLayer)
    {i : String} (h : getL ls i = none) :
    getL (ls ++ [x]) i = if x.id = i then some x else none := by
  induction ls with
  | nil =>
    by_cases hc : x.id = i
    · simp [getL, List.find?_cons, hc]
    · simp [getL, List.find?_cons, hc, beq_eq_false_iff_ne.mpr hc]
  | cons y ys ih =>
    simp only [getL, List.find?_cons, List.cons_append] at h ⊢
    cases hc : y.id == i with
    | true => rw [hc] at h; simp at h
    | false =>
      rw [hc] at h
      exact ih h

theorem getL_moveLayerBefore (ls : List StyleLayer) (i b j : String) :
    getL (moveLayerBefore ls i b) j = getL ls j := by
  unfold moveLayerBefore
  cases hL : getL ls i with
  | none => rfl
  | some l =>
    have hli : l.id = i := getL_eq_some_id hL
    by_cases hj : i = j
    · subst hj
      have hnone : getL (ls.filter fun x => !(x.id == i)) l.id = none := by
        rw [hli]; exact getL_filter_self ls i
      have hins := getL_insertBeforeId_self
        (ls.filter fun x => !(x.id == i)) b l hnone
      rw [hli] at hins
      rw [hins]
      exact hL.symm
    · have hlj : l.id ≠ j := by rw [hli]; exact hj
      rw [getL_insertBeforeId_ne _ b l hlj]
      exact getL_filter_ne ls (fun e => hj e.symm)

/-! ## Per-layer functions preserve ids -/

theorem hideSkyFog_id (l : StyleLayer) : (hideSkyFog l).id = l.id := by
  unfold hideSkyFog
  split <;> rfl

theorem themeBackground_id (l : StyleLayer) :
    (themeBackground l).id = l.id := by
  unfold themeBackground; split <;> rfl

theorem themeWater_id (l : StyleLayer) : (themeWater l).id = l.id := by
  unfold themeWater; split <;> rfl

theorem themePark_id (l : StyleLayer) : (themePark l).id = l.id := by
  unfold themePark; split <;> rfl

theorem themeBuilding_id (l : StyleLayer) : (themeBuilding l).id = l.id := by
  unfold themeBuilding; split <;> rfl

theorem themeRoad_id (l : StyleLayer) : (themeRoad l).id = l.id := by
  unfold themeRoad; split <;> rfl

theorem themeSymbol_id (l : StyleLayer) : (themeSymbol l).id = l.id := by
  unfold themeSymbol; split <;> rfl

theorem themeLayer_id (l : StyleLayer) : (themeLayer l).id = l.id := by
  unfold themeLayer
  rw [themeSymbol_id, themeRoad_id, themeBuilding_id, themePark_id,
    themeWater_id, themeBackground_id]

theorem heatReassert_id (v : Bool) (l : StyleLayer) :
    (heatReassert v l).id = l.id := rfl

theorem heatReassert_paint (v : Bool) (l : StyleLayer) :
    (heatReassert v l).paint = applyProps HEAT_PAINT l.paint := rfl

theorem heatReassert_layout (v : Bool) (l : StyleLayer) :
    (heatReassert v l).layout = setProp l.layout "visibility"
      (.s (if v then "visible" else "none")) := rfl

theorem restoreLayer_id (snap : List StyleLayer) (l : StyleLayer) :
    (restoreLayer snap l).id = l.id := by
  unfold restoreLayer
  cases getL snap l.id <;> rfl

/-! ## Effect lemmas for the engine operations -/

theorem getL_heatLayersFn_ne (v : Bool) (ls : List StyleLayer) {j : String}
    (hj : j ≠ "risk-heat") :
    getL (heatLayersFn v ls) j = getL ls j := by
  unfold heatLayersFn
  have key : ∀ ls2 : List StyleLayer, getL ls2 j = getL ls j →
      getL (match firstSymbol ls2 with
            | some fs => moveLayerBefore ls2 "risk-heat" fs.id
            | none => ls2) j = getL ls j := by
    intro ls2 h2
    cases firstSymbol ls2 with
    | some fs => rw [getL_moveLayerBefore]; exact h2
    | none => exact h2
  apply key
  split
  · next h =>
    have hf : ∀ l : StyleLayer,
        ((fun l => if l.id == "risk-heat" then heatReassert v l else l) l).id
          = l.id := by
      intro l
      dsimp only
      split
      · rfl
      · rfl
    rw [getL_map _ hf ls j]
    cases hy : getL ls j with
    | none => rfl
    | some y =>
      have hyj : (y.id == "risk-heat") = false :=
        beq_eq_false_iff_ne.mpr (by rw [getL_eq_some_id hy]; exact hj)
      simp [hyj]
      exact fun he => absurd he (beq_eq_false_iff_ne.mp hyj)
  · next h =>
    cases hy : getL ls j with
    | some y => exact getL_append_single_some ls _ hy
    | none =>
      rw [getL_append_single_none ls _ hy]
      rw [if_neg (show ¬ (mkHeatLayer v).id = j from fun e => hj e.symm)]

theorem getL_heatLayersFn_heat (v : Bool) (ls : List StyleLayer) :
    getL (heatLayersFn v ls) "risk-heat" =
      some (match getL ls "risk-heat" with
            | some l => heatReassert v l
            | none => mkHeatLayer v) := by
  unfold heatLayersFn
  have key : ∀ ls2 : List StyleLayer,
      getL ls2 "risk-heat" = some (match getL ls "risk-heat" with
            | some l => heatReassert v l
            | none => mkHeatLayer v) →
      getL (match firstSymbol ls2 with
            | some fs => moveLayerBefore ls2 "risk-heat" fs.id
            | none => ls2) "risk-heat" =
        some (match getL ls "risk-heat" with
              | some l => heatReassert v l
              | none => mkHeatLayer v) := by
    intro ls2 h2
    cases firstSymbol ls2 with
    | some fs => rw [getL_moveLayerBefore]; exact h2
    | none => exact h2
  apply key
  split
  · next h =>
    obtain ⟨l, hl⟩ := Option.isSome_iff_exists.mp h
    have hf : ∀ l : StyleLayer,
        ((fun l => if l.id == "risk-heat" then heatReassert v l else l) l).id
          = l.id := by
      intro l
      dsimp only
      split
      · rfl
      · rfl
    rw [getL_map _ hf ls _, hl]
    have hid : (l.id == "risk-heat") = true := by
      rw [getL_eq_some_id hl]; exact beq_self_eq_true _
    simp [hid]
    exact fun hne => absurd (getL_eq_some_id hl) hne
  · next h =>
    have hn : getL ls "risk-heat" = none := Option.not_isSome_iff_eq_none.mp h
    rw [hn]
    rw [getL_append_single_none ls _ hn]
    rw [if_pos (show (mkHeatLayer v).id = "risk-heat" from rfl)]

theorem heatReassert_vis (v : Bool) (l : StyleLayer) :
    (heatReassert v l).layout.lookup "visibility" =
      some (.s (if v then "visible" else "none")) :=
  lookup_setProp_self _ _ _

theorem mkHeatLayer_vis (v : Bool) :
    (mkHeatLayer v).layout.lookup "visibility" =
      some (.s (if v then "visible" else "none")) := rfl

theorem ensureHeatSource_spec (dist : ℚ → ℚ → ℚ → ℚ → ℚ) (m : MapState) :
    (ensureHeatSource dist m).layers = m.layers ∧
    (ensureHeatSource dist m).styleLoaded = m.styleLoaded ∧
    (ensureHeatSource dist m).hackopolyApplied = m.hackopolyApplied ∧
    (ensureHeatSource dist m).originalStyleLayers = m.originalStyleLayers ∧
    (ensureHeatSource dist m).originalCamera = m.originalCamera ∧
    (ensureHeatSource dist m).mapHeatOn = m.mapHeatOn ∧
    (ensureHeatSource dist m).heatRef = m.heatRef ∧
    (ensureHeatSource dist m).zoom = m.zoom ∧
    (ensureHeatSource dist m).rawCache = m.rawCache ∧
    (ensureHeatSource dist m).heatSourceExists = true ∧
    (((ensureHeatSource dist m).samples = m.samples ∧
      (ensureHeatSource dist m).lastBucket = m.lastBucket ∧
      (ensureHeatSource dist m).geoCache = m.geoCache) ∨
      ((ensureHeatSource dist m).samples = m.samples + 1 ∧
       (ensureHeatSource dist m).lastBucket = some (zoomBucket m.zoom) ∧
       ((ensureHeatSource dist m).geoCache).isSome = true)) ∧
    (m.heatSourceExists = true → ensureHeatSource dist m = m) := by
  obtain ⟨ls, sl, ha, osl, oc, br, pi, re, fg, hr, mho, zo, hse, hsd, rc,
    gc, lb, sa, lfb, rem, dm, s1, s2, s3, d1, d2, d3⟩ := m
  cases hse
  · cases rc
    · exact ⟨rfl, rfl, rfl, rfl, rfl, rfl, rfl, rfl, rfl, rfl,
        Or.inl ⟨rfl, rfl, rfl⟩, fun hc => by cases hc⟩
    · exact ⟨rfl, rfl, rfl, rfl, rfl, rfl, rfl, rfl, rfl, rfl,
        Or.inr ⟨rfl, rfl, rfl⟩, fun hc => by cases hc⟩
  · exact ⟨rfl, rfl, rfl, rfl, rfl, rfl, rfl, rfl, rfl, rfl,
      Or.inl ⟨rfl, rfl, rfl⟩, fun _ => rfl⟩

theorem resampleHeatIfNeeded_spec (dist : ℚ → ℚ → ℚ → ℚ → ℚ)
    (m : MapState) :
    (resampleHeatIfNeeded dist m).layers = m.layers ∧
    (resampleHeatIfNeeded dist m).heatRef = m.heatRef ∧
    (resampleHeatIfNeeded dist m).mapHeatOn = m.mapHeatOn ∧
    (resampleHeatIfNeeded dist m).zoom = m.zoom ∧
    (resampleHeatIfNeeded dist m).rawCache = m.rawCache ∧
    (resampleHeatIfNeeded dist m).heatSourceExists = m.heatSourceExists ∧
    (((resampleHeatIfNeeded dist m).samples = m.samples ∧
      (resampleHeatIfNeeded dist m).lastBucket = m.lastBucket ∧
      (resampleHeatIfNeeded dist m).geoCache = m.geoCache) ∨
      ((resampleHeatIfNeeded dist m).samples = m.samples + 1 ∧
       (resampleHeatIfNeeded dist m).lastBucket = some (zoomBucket m.zoom) ∧
       ((resampleHeatIfNeeded dist m).geoCache).isSome = true)) ∧
    ((m.lastBucket = some (zoomBucket m.zoom) ∧ m.geoCache.isSome = true) →
      resampleHeatIfNeeded dist m = m) ∧
    (m.rawCache = none → resampleHeatIfNeeded dist m = m) := by
  unfold resampleHeatIfNeeded
  split
  · next h =>
    exact ⟨rfl, rfl, rfl, rfl, rfl, rfl, Or.inl ⟨rfl, rfl, rfl⟩,
      fun _ => rfl, fun _ => rfl⟩
  · next h =>
    push_neg at h
    split
    · next hskip =>
      exact ⟨rfl, rfl, rfl, rfl, rfl, rfl, Or.inl ⟨rfl, rfl, rfl⟩,
        fun _ => rfl, fun hc => absurd hc h.2⟩
    · next hskip =>
      split
      · exact ⟨rfl, rfl, rfl, rfl, rfl, rfl, Or.inr ⟨rfl, rfl, rfl⟩,
          fun hc => absurd hc hskip, fun hc => absurd hc h.2⟩
      · next heq =>
        exact absurd heq h.2

theorem upsertHeatLayer_eq (dist : ℚ → ℚ → ℚ → ℚ → ℚ) (m : MapState)
    (v : Bool) :
    upsertHeatLayer dist m v =
      { ensureHeatSource dist m with layers := heatLayersFn v m.layers } := by
  unfold upsertHeatLayer
  dsimp only
  rw [(ensureHeatSource_spec dist m).1]

theorem onToggleHeat_spec (dist : ℚ → ℚ → ℚ → ℚ → ℚ) (m : MapState) :
    (onToggleHeat dist m).heatRef = !m.heatRef ∧
    (onToggleHeat dist m).zoom = m.zoom ∧
    (onToggleHeat dist m).rawCache = m.rawCache ∧
    (onToggleHeat dist m).heatSourceExists = true ∧
    getL (onToggleHeat dist m).layers "risk-heat" =
      some (match getL m.layers "risk-heat" with
            | some l => heatReassert (!m.heatRef) l
            | none => mkHeatLayer (!m.heatRef)) ∧
    (((onToggleHeat dist m).samples = m.samples ∧
      (onToggleHeat dist m).lastBucket = m.lastBucket ∧
      (onToggleHeat dist m).geoCache = m.geoCache) ∨
     ((onToggleHeat dist m).samples = m.samples + 1 ∧
      (onToggleHeat dist m).lastBucket = some (zoomBucket m.zoom) ∧
      ((onToggleHeat dist m).geoCache).isSome = true)) ∧
    (m.heatSourceExists = true → m.lastBucket = some (zoomBucket m.zoom) →
      (m.geoCache).isSome = true →
      (onToggleHeat dist m).samples = m.samples) := by
  unfold onToggleHeat
  dsimp only
  rw [upsertHeatLayer_eq]
  obtain ⟨e1, e2, e3, e4, e5, e6, e7, e8, e9, e10, e11, e12⟩ :=
    ensureHeatSource_spec dist
      { m with heatRef := !m.heatRef, mapHeatOn := some (!m.heatRef) }
  dsimp only at e1 e2 e3 e4 e5 e6 e7 e8 e9 e10 e11 e12
  set E := ensureHeatSource dist
    { m with heatRef := !m.heatRef, mapHeatOn := some (!m.heatRef) } with hE
  set M2 : MapState :=
    { E with layers := heatLayersFn (!m.heatRef) m.layers } with hM2
  have hM2layers : M2.layers = heatLayersFn (!m.heatRef) m.layers := rfl
  have hM2heatRef : M2.heatRef = !m.heatRef := e7
  have hM2zoom : M2.zoom = m.zoom := e8
  have hM2raw : M2.rawCache = m.rawCache := e9
  have hM2src : M2.heatSourceExists = true := e10
  have hM2lb : M2.lastBucket = E.lastBucket := rfl
  have hM2gc : M2.geoCache = E.geoCache := rfl
  have hM2sa : M2.samples = E.samples := rfl
  obtain ⟨r1, r2, r3, r4, r5, r6, r7, r8, r9⟩ :=
    resampleHeatIfNeeded_spec dist M2
  by_cases hb : (!m.heatRef) = true
  · rw [if_pos hb]
    refine ⟨by rw [r2]; exact hM2heatRef, by rw [r4]; exact hM2zoom,
      by rw [r5]; exact hM2raw, by rw [r6]; exact hM2src, ?_, ?_, ?_⟩
    · rw [r1, hM2layers, getL_heatLayersFn_heat]
    · rcases e11 with ⟨hs, hl, hg⟩ | ⟨hs, hl, hg⟩
      · -- the ensure step did not sample: the resample may add one
        rcases r7 with ⟨rs, rl, rg⟩ | ⟨rs, rl, rg⟩
        · exact Or.inl ⟨by rw [rs, hM2sa, hs], by rw [rl, hM2lb, hl],
            by rw [rg, hM2gc, hg]⟩
        · exact Or.inr ⟨by rw [rs, hM2sa, hs], by rw [rl, hM2zoom],
            by rw [rg]⟩
      · -- the ensure step sampled: the resample is skipped
        have hskip := r8 ⟨by rw [hM2lb, hM2zoom]; exact hl,
          by rw [hM2gc]; exact hg⟩
        rw [hskip]
        exact Or.inr ⟨by rw [hM2sa]; exact hs, by rw [hM2lb]; exact hl,
          by rw [hM2gc]; exact hg⟩
    · intro hsrc hlb hgc
      have hEeq := e12 hsrc
      have hskip := r8 ⟨by rw [hM2lb, hM2zoom, hEeq]; exact hlb,
        by rw [hM2gc, hEeq]; exact hgc⟩
      rw [hskip, hM2sa, hEeq]
  · rw [if_neg hb]
    refine ⟨hM2heatRef, hM2zoom, hM2raw, hM2src, ?_, ?_, ?_⟩
    · rw [hM2layers, getL_heatLayersFn_heat]
    · rcases e11 with ⟨hs, hl, hg⟩ | ⟨hs, hl, hg⟩
      · exact Or.inl ⟨by rw [hM2sa]; exact hs, by rw [hM2lb]; exact hl,
          by rw [hM2gc]; exact hg⟩
      · exact Or.inr ⟨by rw [hM2sa]; exact hs, by rw [hM2lb]; exact hl,
          by rw [hM2gc]; exact hg⟩
    · intro hsrc hlb hgc
      have hEeq := e12 hsrc
      rw [hM2sa, hEeq]

/-- Claim C6: dispatching `toggle-heat` twice in succession (the handler
itself never changes the zoom, so the zoom bucket cannot change in
between) returns the heat flag `heatRef` and the heat layer's recorded
visibility to their original values, and the pair of toggles performs at
most one resample (the `samples` counter counts `buildHeatGeoJSON`
recomputation writes). -/
theorem C6_toggle_heat_twice (dist : ℚ → ℚ → ℚ → ℚ → ℚ) (s : MapState)
    (hvis : ∀ l, getL s.layers "risk-heat" = some l →
        l.layout.lookup "visibility" =
          some (.s (if s.heatRef then "visible" else "none"))) :
    (onToggleHeat dist (onToggleHeat dist s)).heatRef = s.heatRef ∧
    (∀ l0 l2, getL s.layers "risk-heat" = some l0 →
        getL (onToggleHeat dist (onToggleHeat dist s)).layers "risk-heat"
          = some l2 →
        l2.layout.lookup "visibility" = l0.layout.lookup "visibility") ∧
    (onToggleHeat dist (onToggleHeat dist s)).samples ≤ s.samples + 1 := by
  obtain ⟨a1, a2, a3, a4, a5, a6, a7⟩ := onToggleHeat_spec dist s
  obtain ⟨b1, b2, b3, b4, b5, b6, b7⟩ :=
    onToggleHeat_spec dist (onToggleHeat dist s)
  refine ⟨by rw [b1, a1, Bool.not_not], ?_, ?_⟩
  · intro l0 l2 h0 h2
    rw [b5] at h2
    cases hc : getL (onToggleHeat dist s).layers "risk-heat" with
    | some l =>
      rw [hc] at h2
      injection h2 with h2
      have hv : l2.layout.lookup "visibility" =
          some (.s (if !(onToggleHeat dist s).heatRef then "visible"
            else "none")) := by
        rw [← h2]; exact heatReassert_vis _ _
      rw [hv, hvis l0 h0, a1, Bool.not_not]
    | none =>
      rw [hc] at h2
      injection h2 with h2
      have hv : l2.layout.lookup "visibility" =
          some (.s (if !(onToggleHeat dist s).heatRef then "visible"
            else "none")) := by
        rw [← h2]; exact mkHeatLayer_vis _
      rw [hv, hvis l0 h0, a1, Bool.not_not]
  · rcases a6 with ⟨as_, al, ag⟩ | ⟨as_, al, ag⟩
    · rcases b6 with ⟨bs, bl, bg⟩ | ⟨bs, bl, bg⟩
      · rw [bs, as_]; exact Nat.le_succ _
      · rw [bs, as_]
    · have hskip := b7 a4 (by rw [al, a2]) ag
      rw [hskip, as_]

/-- The engine state used by the concrete witnesses: a fresh map with no
layers, heat off, zoom 12, nothing cached. -/
def mapStateW : MapState :=
  { layers := [], styleLoaded := true, hackopolyApplied := false,
    originalStyleLayers := none, originalCamera := none, bearing := 0,
    pitch := 0, rotateEnabled := false, fogSet := false, heatRef := false,
    mapHeatOn := none, zoom := 12, heatSourceExists := false,
    heatSourceData := [], rawCache := none, geoCache := none,
    lastBucket := none, samples := 0, lastFitBounds := none,
    routeEndMarker := none, destinationMarker := none, fastestSrc := false,
    safestSrc := false, weightedSrc := false, fastestData := none,
    safestData := none, weightedData := none }

/-- Witness for C6 at a concrete state: flag restored and at most one
resample. -/
theorem C6_witness :
    (onToggleHeat distW (onToggleHeat distW mapStateW)).heatRef
      = mapStateW.heatRef ∧
    (onToggleHeat distW (onToggleHeat distW mapStateW)).samples
      ≤ mapStateW.samples + 1 := by
  have h := C6_toggle_heat_twice distW mapStateW
    (by intro l hl; simp [mapStateW, getL] at hl)
  exact ⟨h.1, h.2.2⟩

theorem getL_append_single_ne (ls : List StyleLayer) (x : StyleLayer)
    {j : String} (h : x.id ≠ j) :
    getL (ls ++ [x]) j = getL ls j := by
  cases hy : getL ls j with
  | some y => exact getL_append_single_some ls x hy
  | none =>
    rw [getL_append_single_none ls x hy]
    exact if_neg h

theorem getL_addLayerOpt_ne (ls : List StyleLayer) (before : Option String)
    (x : StyleLayer) {j : String} (h : x.id ≠ j) :
    getL (addLayerOpt ls before x) j = getL ls j := by
  cases before with
  | none => exact getL_append_single_ne ls x h
  | some b => exact getL_insertBeforeId_ne ls b x h

theorem getL_themed (ls : List StyleLayer) (j : String) :
    getL ((ls.map hideSkyFog).map themeLayer) j
      = ((getL ls j).map hideSkyFog).map themeLayer := by
  rw [getL_map themeLayer themeLayer_id, getL_map hideSkyFog hideSkyFog_id]

theorem patchTheme_spec (dist : ℚ → ℚ → ℚ → ℚ → ℚ) (m : MapState) :
    (patchTheme dist m).originalStyleLayers = m.originalStyleLayers ∧
    (patchTheme dist m).originalCamera = m.originalCamera ∧
    (patchTheme dist m).mapHeatOn = m.mapHeatOn ∧
    (patchTheme dist m).hackopolyApplied = m.hackopolyApplied ∧
    (∀ j, j ≠ "risk-heat" → j ≠ "add-hackopoly-buildings" →
      getL (patchTheme dist m).layers j =
        ((getL m.layers j).map hideSkyFog).map themeLayer) ∧
    getL (patchTheme dist m).layers "risk-heat" =
      some (match ((getL m.layers "risk-heat").map hideSkyFog).map
              themeLayer with
            | some c => heatReassert (m.mapHeatOn.getD false) c
            | none => mkHeatLayer (m.mapHeatOn.getD false)) := by
  unfold patchTheme
  dsimp only
  rw [upsertHeatLayer_eq]
  split
  · refine ⟨(ensureHeatSource_spec dist _).2.2.2.1,
      (ensureHeatSource_spec dist _).2.2.2.2.1,
      (ensureHeatSource_spec dist _).2.2.2.2.2.1,
      (ensureHeatSource_spec dist _).2.2.1, ?_, ?_⟩
    · intro j hj1 hj2
      rw [getL_heatLayersFn_ne _ _ hj1]
      exact getL_themed m.layers j
    · rw [getL_heatLayersFn_heat, getL_themed m.layers]
  · refine ⟨(ensureHeatSource_spec dist _).2.2.2.1,
      (ensureHeatSource_spec dist _).2.2.2.2.1,
      (ensureHeatSource_spec dist _).2.2.2.2.2.1,
      (ensureHeatSource_spec dist _).2.2.1, ?_, ?_⟩
    · intro j hj1 hj2
      rw [getL_heatLayersFn_ne _ _ hj1]
      rw [getL_addLayerOpt_ne _ _ _
        (show hackBuildingsLayer.id ≠ j from fun e => hj2 e.symm)]
      exact getL_themed m.layers j
    · rw [getL_heatLayersFn_heat]
      rw [getL_addLayerOpt_ne _ _ _
        (show hackBuildingsLayer.id ≠ "risk-heat" by decide)]
      rw [getL_themed m.layers]

theorem applyHackopolyTheme_fresh (dist : ℚ → ℚ → ℚ → ℚ → ℚ) (m : MapState)
    (hap : m.hackopolyApplied = false)
    (hsnap : m.originalStyleLayers = none)
    (hload : m.styleLoaded = true) :
    applyHackopolyTheme dist m =
      patchTheme dist
        { m with
          hackopolyApplied := true
          originalStyleLayers := some m.layers
          originalCamera :=
            some (m.originalCamera.getD (m.bearing, m.pitch)) } := by
  obtain ⟨ls, sl, ha, osl, oc, br, pi, re, fg, hr, mho, zo, hse, hsd, rc,
    gc, lb, sa, lfb, rem, dm, s1, s2, s3, d1, d2, d3⟩ := m
  simp only at hap hsnap hload
  subst hap hsnap hload
  cases oc with
  | some c => rfl
  | none => rfl

theorem removeHackopolyTheme_spec (dist : ℚ → ℚ → ℚ → ℚ → ℚ)
    (m : MapState) (snap : List StyleLayer)
    (hsnap : m.originalStyleLayers = some snap) :
    (removeHackopolyTheme dist m).originalStyleLayers = none ∧
    (∀ j, j ≠ "risk-heat" → j ≠ "add-hackopoly-buildings" →
      getL (removeHackopolyTheme dist m).layers j =
        (getL m.layers j).map (restoreLayer snap)) ∧
    getL (removeHackopolyTheme dist m).layers "risk-heat" =
      some (match (getL m.layers "risk-heat").map (restoreLayer snap) with
            | some c => heatReassert (m.mapHeatOn.getD false) c
            | none => mkHeatLayer (m.mapHeatOn.getD false)) := by
  unfold removeHackopolyTheme
  dsimp only
  by_cases hext : (getL m.layers "add-hackopoly-buildings").isSome = true
  · rw [if_pos hext]
    try dsimp only
    rw [hsnap]
    try dsimp only
    cases hoc : m.originalCamera with
    | some bp =>
      try dsimp only
      rw [upsertHeatLayer_eq]
      refine ⟨(ensureHeatSource_spec dist _).2.2.2.1, ?_, ?_⟩
      · intro j hj1 hj2
        rw [getL_heatLayersFn_ne _ _ hj1,
          getL_map (restoreLayer snap) (restoreLayer_id snap),
          getL_filter_ne _ hj2]
      · rw [getL_heatLayersFn_heat,
          getL_map (restoreLayer snap) (restoreLayer_id snap),
          getL_filter_ne _ (show "risk-heat" ≠ "add-hackopoly-buildings"
            by decide)]
    | none =>
      try dsimp only
      rw [upsertHeatLayer_eq]
      refine ⟨(ensureHeatSource_spec dist _).2.2.2.1, ?_, ?_⟩
      · intro j hj1 hj2
        rw [getL_heatLayersFn_ne _ _ hj1,
          getL_map (restoreLayer snap) (restoreLayer_id snap),
          getL_filter_ne _ hj2]
      · rw [getL_heatLayersFn_heat,
          getL_map (restoreLayer snap) (restoreLayer_id snap),
          getL_filter_ne _ (show "risk-heat" ≠ "add-hackopoly-buildings"
            by decide)]
  · rw [if_neg hext]
    try dsimp only
    rw [hsnap]
    try dsimp only
    cases hoc : m.originalCamera with
    | some bp =>
      try dsimp only
      rw [upsertHeatLayer_eq]
      refine ⟨(ensureHeatSource_spec dist _).2.2.2.1, ?_, ?_⟩
      · intro j hj1 hj2
        rw [getL_heatLayersFn_ne _ _ hj1,
          getL_map (restoreLayer snap) (restoreLayer_id snap)]
      · rw [getL_heatLayersFn_heat,
          getL_map (restoreLayer snap) (restoreLayer_id snap)]
    | none =>
      try dsimp only
      rw [upsertHeatLayer_eq]
      refine ⟨(ensureHeatSource_spec dist _).2.2.2.1, ?_, ?_⟩
      · intro j hj1 hj2
        rw [getL_heatLayersFn_ne _ _ hj1,
          getL_map (restoreLayer snap) (restoreLayer_id snap)]
      · rw [getL_heatLayersFn_heat,
          getL_map (restoreLayer snap) (restoreLayer_id snap)]

theorem HEAT_PAINT_keys_nodup : (HEAT_PAINT.map Prod.fst).Nodup := by
  decide

set_option maxHeartbeats 1600000 in
/-- Claim C1: starting with no snapshot, `applyHackopolyTheme` followed by
`removeHackopolyTheme` restores, for every layer present in both the
pre-activation style and the final style, every paint and layout key
recorded in the snapshot to its pre-activation value; keys not recorded in
the snapshot are left exactly as activation left them; and the snapshot is
discarded.  The hypotheses are the standing invariants of a real map
surface: unique layer ids, unique JS-object property keys, no stale
`add-hackopoly-buildings` layer, and a heat layer (if present) carrying
exactly the constants the engine itself maintains (`HEAT_PAINT` values and
a visibility mirroring `__heatOn`). -/
theorem C1_theme_roundtrip (dist : ℚ → ℚ → ℚ → ℚ → ℚ) (s : MapState)
    (hap : s.hackopolyApplied = false)
    (hsnap : s.originalStyleLayers = none)
    (hload : s.styleLoaded = true)
    (hext : getL s.layers "add-hackopoly-buildings" = none)
    (hpk : ∀ l ∈ s.layers, (l.paint.map Prod.fst).Nodup ∧
        (l.layout.map Prod.fst).Nodup)
    (hheat : ∀ l, getL s.layers "risk-heat" = some l →
       (∀ k v w, HEAT_PAINT.lookup k = some v → l.paint.lookup k = some w →
          w = v) ∧
       (∀ w, l.layout.lookup "visibility" = some w →
          w = .s (if s.mapHeatOn.getD false then "visible" else "none"))) :
    (removeHackopolyTheme dist
      (applyHackopolyTheme dist s)).originalStyleLayers = none ∧
    (∀ j l0 l2, getL s.layers j = some l0 →
      getL (removeHackopolyTheme dist
          (applyHackopolyTheme dist s)).layers j = some l2 →
      (∀ k v, l0.paint.lookup k = some v → l2.paint.lookup k = some v) ∧
      (∀ k v, l0.layout.lookup k = some v → l2.layout.lookup k = some v) ∧
      (∃ l1, getL (applyHackopolyTheme dist s).layers j = some l1 ∧
        (∀ k, l0.paint.lookup k = none →
           l2.paint.lookup k = l1.paint.lookup k) ∧
        (∀ k, l0.layout.lookup k = none →
           l2.layout.lookup k = l1.layout.lookup k))) := by
  have happly := applyHackopolyTheme_fresh dist s hap hsnap hload
  rw [happly]
  obtain ⟨p1, p2, p3, p4, p5, p6⟩ := patchTheme_spec dist
    { s with
      hackopolyApplied := true
      originalStyleLayers := some s.layers
      originalCamera := some (s.originalCamera.getD (s.bearing, s.pitch)) }
  have hp1 : (patchTheme dist
      { s with
        hackopolyApplied := true
        originalStyleLayers := some s.layers
        originalCamera :=
          some (s.originalCamera.getD (s.bearing, s.pitch)) }).originalStyleLayers
      = some s.layers := p1
  obtain ⟨r1, r2, r3⟩ := removeHackopolyTheme_spec dist _ s.layers hp1
  rw [p3] at r3
  dsimp only at p5 p6 r3
  refine ⟨r1, ?_⟩
  intro j l0 l2 h0 h2
  have hjext : j ≠ "add-hackopoly-buildings" := by
    intro e
    rw [e, hext] at h0
    exact Option.noConfusion h0
  obtain ⟨hnp, hnl⟩ := hpk l0 (getL_mem h0)
  by_cases hjheat : j = "risk-heat"
  · -- the heat layer: re-asserted after the restore with engine constants
    subst hjheat
    obtain ⟨hh1, hh2⟩ := hheat l0 h0
    rw [h0] at p6
    simp only [Option.map_some'] at p6
    rw [p6] at r3
    simp only [Option.map_some'] at r3
    rw [r3] at h2
    injection h2 with h2
    have hid1 : (heatReassert (s.mapHeatOn.getD false)
        (themeLayer (hideSkyFog l0))).id = "risk-heat" := by
      rw [heatReassert_id, themeLayer_id, hideSkyFog_id]
      exact getL_eq_some_id h0
    have hrl : restoreLayer s.layers (heatReassert (s.mapHeatOn.getD false)
        (themeLayer (hideSkyFog l0))) =
        { id := "risk-heat",
          type := (heatReassert (s.mapHeatOn.getD false)
            (themeLayer (hideSkyFog l0))).type,
          paint := applyProps l0.paint (heatReassert (s.mapHeatOn.getD false)
            (themeLayer (hideSkyFog l0))).paint,
          layout := applyProps l0.layout
            (heatReassert (s.mapHeatOn.getD false)
              (themeLayer (hideSkyFog l0))).layout } := by
      unfold restoreLayer
      rw [hid1, h0]
    rw [hrl] at h2
    have hpaint : l2.paint =
        applyProps HEAT_PAINT (applyProps l0.paint
          (heatReassert (s.mapHeatOn.getD false)
            (themeLayer (hideSkyFog l0))).paint) := by
      rw [← h2]
      rfl
    have hlayout : l2.layout =
        setProp (applyProps l0.layout
          (heatReassert (s.mapHeatOn.getD false)
            (themeLayer (hideSkyFog l0))).layout) "visibility"
          (.s (if s.mapHeatOn.getD false then "visible" else "none")) := by
      rw [← h2]
      rfl
    have h1paint := heatReassert_paint (s.mapHeatOn.getD false)
      (themeLayer (hideSkyFog l0))
    have h1layout := heatReassert_layout (s.mapHeatOn.getD false)
      (themeLayer (hideSkyFog l0))
    refine ⟨?_, ?_, ⟨heatReassert (s.mapHeatOn.getD false)
      (themeLayer (hideSkyFog l0)), p6, ?_, ?_⟩⟩
    · -- recorded paint keys are restored to the snapshot values
      intro k v hkrec
      rw [hpaint]
      cases hk2 : HEAT_PAINT.lookup k with
      | some hv =>
        rw [lookup_applyProps_recorded HEAT_PAINT HEAT_PAINT_keys_nodup hk2]
        exact congrArg some (hh1 k hv v hk2 hkrec).symm
      | none =>
        rw [lookup_applyProps_none HEAT_PAINT hk2]
        exact lookup_applyProps_recorded l0.paint hnp hkrec _
    · -- recorded layout keys are restored to the snapshot values
      intro k v hkrec
      rw [hlayout]
      by_cases hkv : k = "visibility"
      · subst hkv
        rw [lookup_setProp_self]
        exact congrArg some (hh2 v hkrec).symm
      · rw [lookup_setProp_ne _ _ hkv]
        exact lookup_applyProps_recorded l0.layout hnl hkrec _
    · -- unrecorded paint keys keep their post-activation value
      intro k hknone
      rw [hpaint, h1paint]
      cases hk2 : HEAT_PAINT.lookup k with
      | some hv =>
        rw [lookup_applyProps_recorded HEAT_PAINT HEAT_PAINT_keys_nodup hk2,
          lookup_applyProps_recorded HEAT_PAINT HEAT_PAINT_keys_nodup hk2]
      | none =>
        rw [lookup_applyProps_none HEAT_PAINT hk2,
          lookup_applyProps_none l0.paint hknone,
          lookup_applyProps_none HEAT_PAINT hk2]
    · -- unrecorded layout keys keep their post-activation value
      intro k hknone
      rw [hlayout, h1layout]
      by_cases hkv : k = "visibility"
      · subst hkv
        rw [lookup_setProp_self, lookup_setProp_self]
      · rw [lookup_setProp_ne _ _ hkv,
          lookup_applyProps_none l0.layout hknone,
          lookup_setProp_ne _ _ hkv]
  · -- an ordinary layer: themed by activation, then restored
    have hL1 : getL (patchTheme dist
        { s with
          hackopolyApplied := true
          originalStyleLayers := some s.layers
          originalCamera :=
            some (s.originalCamera.getD (s.bearing, s.pitch)) }).layers j
        = some (themeLayer (hideSkyFog l0)) := by
      rw [p5 j hjheat hjext, h0]
      rfl
    have hL2 := r2 j hjheat hjext
    rw [hL1] at hL2
    simp only [Option.map_some'] at hL2
    rw [hL2] at h2
    injection h2 with h2
    have hid1 : (themeLayer (hideSkyFog l0)).id = j := by
      rw [themeLayer_id, hideSkyFog_id]
      exact getL_eq_some_id h0
    have hrl : restoreLayer s.layers (themeLayer (hideSkyFog l0)) =
        { id := j,
          type := (themeLayer (hideSkyFog l0)).type,
          paint := applyProps l0.paint (themeLayer (hideSkyFog l0)).paint,
          layout :=
            applyProps l0.layout (themeLayer (hideSkyFog l0)).layout } := by
      unfold restoreLayer
      rw [hid1, h0]
    rw [hrl] at h2
    have hpaint : l2.paint =
        applyProps l0.paint (themeLayer (hideSkyFog l0)).paint := by
      rw [← h2]
    have hlayout : l2.layout =
        applyProps l0.layout (themeLayer (hideSkyFog l0)).layout := by
      rw [← h2]
    refine ⟨?_, ?_, ⟨themeLayer (hideSkyFog l0), hL1, ?_, ?_⟩⟩
    · intro k v hkrec
      rw [hpaint]
      exact lookup_applyProps_recorded l0.paint hnp hkrec _
    · intro k v hkrec
      rw [hlayout]
      exact lookup_applyProps_recorded l0.layout hnl hkrec _
    · intro k hknone
      rw [hpaint]
      exact lookup_applyProps_none l0.paint hknone _
    · intro k hknone
      rw [hlayout]
      exact lookup_applyProps_none l0.layout hknone _

/-- Witness for C1 at a concrete fresh state: after activate-then-deactivate
the snapshot is discarded. -/
theorem C1_witness :
    (removeHackopolyTheme distW
      (applyHackopolyTheme distW mapStateW)).originalStyleLayers = none :=
  (C1_theme_roundtrip distW mapStateW rfl rfl rfl rfl
    (by intro l hl; exact absurd hl (List.not_mem_nil l))
    (by intro l hl; simp [mapStateW, getL] at hl)).1

/-! ## Route drawing: `onDrawRoutes`, `onFitRoutePoints`,
`onSetDestination` and `pathArrayToGeoJSON` -/

/-- The `app:draw-routes` event detail `{fastest, safest, weighted,
active}`; a missing geometry is `none` and a missing `active` is the falsy
empty string. -/
structure RouteDetail where
  fastest : Option Geo
  safest : Option Geo
  weighted : Option Geo
  active : String

/-- `getLineCoords` (App.jsx `onDrawRoutes`): the line segments of the
chosen geometry, unwrapping a Feature and flattening a FeatureCollection;
anything else contributes no lines. -/
def getLineCoords : Option Geo → List (List (ℚ × ℚ))
  | none => []
  | some (.geom (.line cs)) => [cs]
  | some (.geom (.multi css)) => css
  | some (.geom .other) => []
  | some (.feature none) => []
  | some (.feature (some (.line cs))) => [cs]
  | some (.feature (some (.multi css))) => css
  | some (.feature (some .other)) => []
  | some (.featureCollection fs) =>
    fs.foldl (fun acc g =>
      match g with
      | some (.line cs) => acc ++ [cs]
      | some (.multi css) => acc ++ css
      | _ => acc) []

/-- One step of `computeBounds`' min/max sweep over a vertex. -/
def boundsStep (b : (ℚ × ℚ) × (ℚ × ℚ)) (c : ℚ × ℚ) : (ℚ × ℚ) × (ℚ × ℚ) :=
  ((min b.1.1 c.1, min b.1.2 c.2), (max b.2.1 c.1, max b.2.2 c.2))

/-- `computeBounds` (App.jsx): the inclusive `[[w, s], [e, n]]` bounding
box over all vertices of all lines, `null` when there is no vertex (the
`±Infinity` seeds survive untouched exactly when the loop body never
runs). -/
def computeBounds (lines : List (List (ℚ × ℚ))) :
    Option ((ℚ × ℚ) × (ℚ × ℚ)) :=
  match lines.flatten with
  | [] => none
  | v :: vs => some (vs.foldl boundsStep (v, v))

/-- `getLineEnd` (App.jsx): the last vertex of the last non-empty line,
scanning the lines from the back. -/
def getLineEnd : List (List (ℚ × ℚ)) → Option (ℚ × ℚ)
  | [] => none
  | l :: ls =>
    match getLineEnd ls with
    | some e => some e
    | none => l.getLast?

/-- The active-route selection of `onDrawRoutes`: `active` when truthy,
else the first present of weighted, safest, fastest; the name then picks
the corresponding geometry. -/
def chosenGeo (d : RouteDetail) : Option Geo :=
  let chosenName :=
    if d.active ≠ "" then d.active
    else if d.weighted.isSome then "weighted"
    else if d.safest.isSome then "safest"
    else "fastest"
  if chosenName = "weighted" then d.weighted
  else if chosenName = "safest" then d.safest
  else d.fastest

/-- `onDrawRoutes` (App.jsx): update each route source that exists and has
data, then fit the camera to the chosen geometry's bounds (padding 60,
maxZoom 16) and place or move the endpoint marker at the last vertex of
the last non-empty line. -/
def onDrawRoutes (d : RouteDetail) (m : MapState) : MapState :=
  let m1 := { m with
    fastestData :=
      if m.fastestSrc ∧ d.fastest.isSome then d.fastest else m.fastestData
    safestData :=
      if m.safestSrc ∧ d.safest.isSome then d.safest else m.safestData
    weightedData :=
      if m.weightedSrc ∧ d.weighted.isSome then d.weighted
      else m.weightedData }
  let lines := getLineCoords (chosenGeo d)
  if lines.isEmpty then m1
  else
    let m2 :=
      match computeBounds lines with
      | some b => { m1 with lastFitBounds := some (b, 60, 16) }
      | none => m1
    match getLineEnd lines with
    | some e => { m2 with routeEndMarker := some e }
    | none => m2

/-- `onFitRoutePoints` (App.jsx): when both an origin and a destination are
present, fit the camera to exactly those two points (the `LngLatBounds`
seeded at the origin and extended by both coordinates) with padding 80 and
maxZoom 14; otherwise do nothing. -/
def onFitRoutePoints (origin destination : Option (ℚ × ℚ)) (m : MapState) :
    MapState :=
  match origin, destination with
  | some o, some t =>
    let b := ((min o.1 t.1, min o.2 t.2), (max o.1 t.1, max o.2 t.2))
    { m with lastFitBounds := some (b, 80, 14) }
  | _, _ => m

/-- `onSetDestination` (App.jsx): `const { lng, lat } = e.detail`
destructures the event detail without any guard or try/catch, so an event
dispatched without a detail throws a TypeError to the dispatcher; with a
detail it places or moves the destination marker. -/
def onSetDestination (detail : Option (ℚ × ℚ)) (m : MapState) :
    Except String MapState :=
  match detail with
  | none => .error "TypeError: cannot destructure lng/lat of null e.detail"
  | some p => .ok { m with destinationMarker := some p }

/-- `pathArrayToGeoJSON` (App.jsx): `undefined` unless the input is an
array of at least two pairs, else a LineString Feature with each backend
`[lat, lon]` pair swapped to GeoJSON `[lon, lat]`. -/
def pathArrayToGeoJSON (path : Option (List (ℚ × ℚ))) : Option Geo :=
  match path with
  | none => none
  | some ps =>
    if ps.length < 2 then none
    else some (.feature (some (.line (ps.map fun p => (p.2, p.1)))))

/-- The min/max sweep only tightens: the final box contains the seed box. -/
theorem foldl_boundsStep_mono (vs : List (ℚ × ℚ))
    (b0 : (ℚ × ℚ) × (ℚ × ℚ)) :
    (vs.foldl boundsStep b0).1.1 ≤ b0.1.1 ∧
    (vs.foldl boundsStep b0).1.2 ≤ b0.1.2 ∧
    b0.2.1 ≤ (vs.foldl boundsStep b0).2.1 ∧
    b0.2.2 ≤ (vs.foldl boundsStep b0).2.2 := by
  induction vs generalizing b0 with
  | nil => exact ⟨le_refl _, le_refl _, le_refl _, le_refl _⟩
  | cons c vs ih =>
    obtain ⟨h1, h2, h3, h4⟩ := ih (boundsStep b0 c)
    rw [List.foldl_cons]
    exact ⟨h1.trans (min_le_left _ _), h2.trans (min_le_left _ _),
      (le_max_left _ _).trans h3, (le_max_left _ _).trans h4⟩

/-- Every swept vertex lies inside the final box. -/
theorem foldl_boundsStep_bounds (vs : List (ℚ × ℚ))
    (b0 : (ℚ × ℚ) × (ℚ × ℚ)) :
    ∀ c ∈ vs, (vs.foldl boundsStep b0).1.1 ≤ c.1 ∧
      (vs.foldl boundsStep b0).1.2 ≤ c.2 ∧
      c.1 ≤ (vs.foldl boundsStep b0).2.1 ∧
      c.2 ≤ (vs.foldl boundsStep b0).2.2 := by
  induction vs generalizing b0 with
  | nil => intro c hc; exact absurd hc (List.not_mem_nil c)
  | cons a vs ih =>
    intro c hc
    rw [List.foldl_cons]
    rcases List.mem_cons.mp hc with h | h
    · subst h
      obtain ⟨h1, h2, h3, h4⟩ := foldl_boundsStep_mono vs (boundsStep b0 c)
      exact ⟨h1.trans (min_le_right _ _), h2.trans (min_le_right _ _),
        (le_max_right _ _).trans h3, (le_max_right _ _).trans h4⟩
    · exact ih (boundsStep b0 a) c h

/-- Each side of the final box is attained by the seed or a swept vertex. -/
theorem foldl_boundsStep_attained (vs : List (ℚ × ℚ))
    (b0 : (ℚ × ℚ) × (ℚ × ℚ)) :
    ((vs.foldl boundsStep b0).1.1 = b0.1.1 ∨
      ∃ c ∈ vs, (vs.foldl boundsStep b0).1.1 = c.1) ∧
    ((vs.foldl boundsStep b0).1.2 = b0.1.2 ∨
      ∃ c ∈ vs, (vs.foldl boundsStep b0).1.2 = c.2) ∧
    ((vs.foldl boundsStep b0).2.1 = b0.2.1 ∨
      ∃ c ∈ vs, (vs.foldl boundsStep b0).2.1 = c.1) ∧
    ((vs.foldl boundsStep b0).2.2 = b0.2.2 ∨
      ∃ c ∈ vs, (vs.foldl boundsStep b0).2.2 = c.2) := by
  induction vs generalizing b0 with
  | nil => exact ⟨Or.inl rfl, Or.inl rfl, Or.inl rfl, Or.inl rfl⟩
  | cons a vs ih =>
    obtain ⟨h1, h2, h3, h4⟩ := ih (boundsStep b0 a)
    rw [List.foldl_cons]
    refine ⟨?_, ?_, ?_, ?_⟩
    · rcases h1 with h | ⟨c, hc, h⟩
      · simp only [boundsStep] at h
        rcases min_cases b0.1.1 a.1 with ⟨e, _⟩ | ⟨e, _⟩
        · exact Or.inl (h.trans e)
        · exact Or.inr ⟨a, List.mem_cons_self a vs, h.trans e⟩
      · exact Or.inr ⟨c, List.mem_cons_of_mem a hc, h⟩
    · rcases h2 with h | ⟨c, hc, h⟩
      · simp only [boundsStep] at h
        rcases min_cases b0.1.2 a.2 with ⟨e, _⟩ | ⟨e, _⟩
        · exact Or.inl (h.trans e)
        · exact Or.inr ⟨a, List.mem_cons_self a vs, h.trans e⟩
      · exact Or.inr ⟨c, List.mem_cons_of_mem a hc, h⟩
    · rcases h3 with h | ⟨c, hc, h⟩
      · simp only [boundsStep] at h
        rcases max_cases b0.2.1 a.1 with ⟨e, _⟩ | ⟨e, _⟩
        · exact Or.inl (h.trans e)
        · exact Or.inr ⟨a, List.mem_cons_self a vs, h.trans e⟩
      · exact Or.inr ⟨c, List.mem_cons_of_mem a hc, h⟩
    · rcases h4 with h | ⟨c, hc, h⟩
      · simp only [boundsStep] at h
        rcases max_cases b0.2.2 a.2 with ⟨e, _⟩ | ⟨e, _⟩
        · exact Or.inl (h.trans e)
        · exact Or.inr ⟨a, List.mem_cons_self a vs, h.trans e⟩
      · exact Or.inr ⟨c, List.mem_cons_of_mem a hc, h⟩

/-- `getLineEnd` is the last vertex of the last non-empty line. -/
theorem getLineEnd_eq (ls : List (List (ℚ × ℚ))) :
    getLineEnd ls =
      ((ls.filter fun l => !l.isEmpty).getLast?).bind List.getLast? := by
  induction ls with
  | nil => rfl
  | cons l ls ih =>
    rw [getLineEnd, List.filter_cons]
    by_cases hl : l.isEmpty = true
    · rw [if_neg (by simp [hl])]
      rw [← ih]
      cases hg : getLineEnd ls with
      | some e => rfl
      | none =>
        have : l = [] := List.isEmpty_iff.mp hl
        simp [this]
    · rw [if_pos (by simp [hl])]
      cases hf : ls.filter (fun l => !l.isEmpty) with
      | nil =>
        rw [ih, hf]
        rfl
      | cons a t =>
        rw [List.getLast?_cons_cons, ← hf, ← ih]
        cases hg : getLineEnd ls with
        | some e => rfl
        | none =>
          exfalso
          rw [ih, hf] at hg
          have hne : a :: t ≠ [] := List.cons_ne_nil a t
          rw [List.getLast?_eq_getLast (a :: t) hne] at hg
          have hmem : (a :: t).getLast hne ∈
              ls.filter (fun l => !l.isEmpty) := by
            rw [hf]
            exact List.getLast_mem hne
          have hx := (List.mem_filter.mp hmem).2
          have hxne : (a :: t).getLast hne ≠ [] := by
            intro e
            rw [e] at hx
            simp at hx
          rw [Option.some_bind,
            List.getLast?_eq_getLast ((a :: t).getLast hne) hxne] at hg
          exact Option.noConfusion hg

/-- The fit-and-marker behaviour of `onDrawRoutes` whenever the chosen
geometry has a non-empty line. -/
theorem onDrawRoutes_fit (d : RouteDetail) (m : MapState)
    (hne : ∃ l ∈ getLineCoords (chosenGeo d), l ≠ []) :
    ∃ b, (onDrawRoutes d m).lastFitBounds = some (b, 60, 16) ∧
      computeBounds (getLineCoords (chosenGeo d)) = some b ∧
      (onDrawRoutes d m).routeEndMarker =
        (((getLineCoords (chosenGeo d)).filter
          fun l => !l.isEmpty).getLast?).bind List.getLast? := by
  obtain ⟨l, hl, hlne⟩ := hne
  obtain ⟨c, hc⟩ := List.exists_mem_of_ne_nil l hlne
  have hcf : c ∈ (getLineCoords (chosenGeo d)).flatten :=
    List.mem_flatten.mpr ⟨l, hl, hc⟩
  have hie : (getLineCoords (chosenGeo d)).isEmpty = false := by
    cases he : getLineCoords (chosenGeo d) with
    | nil => rw [he] at hl; exact absurd hl (List.not_mem_nil l)
    | cons a t => rfl
  cases hv : (getLineCoords (chosenGeo d)).flatten with
  | nil =>
    rw [hv] at hcf
    exact absurd hcf (List.not_mem_nil c)
  | cons v vs =>
    have hcb : computeBounds (getLineCoords (chosenGeo d)) =
        some (vs.foldl boundsStep (v, v)) := by
      rw [computeBounds, hv]
    have hlf : l ∈ (getLineCoords (chosenGeo d)).filter
        fun l => !l.isEmpty := by
      refine List.mem_filter.mpr ⟨hl, ?_⟩
      simp [List.isEmpty_iff, hlne]
    have hfne : (getLineCoords (chosenGeo d)).filter
        (fun l => !l.isEmpty) ≠ [] := List.ne_nil_of_mem hlf
    have hge : ∃ e, getLineEnd (getLineCoords (chosenGeo d)) = some e := by
      rw [getLineEnd_eq, List.getLast?_eq_getLast _ hfne]
      have hmem := List.getLast_mem hfne
      have hx := (List.mem_filter.mp hmem).2
      have hxne : ((getLineCoords (chosenGeo d)).filter
          fun l => !l.isEmpty).getLast hfne ≠ [] := by
        intro e
        rw [e] at hx
        simp at hx
      rw [Option.some_bind, List.getLast?_eq_getLast _ hxne]
      exact ⟨_, rfl⟩
    obtain ⟨e, he⟩ := hge
    refine ⟨vs.foldl boundsStep (v, v), ?_, hcb, ?_⟩
    · rw [onDrawRoutes]
      simp only [hie, Bool.false_eq_true, if_false, hcb, he]
    · rw [onDrawRoutes]
      simp only [hie, Bool.false_eq_true, if_false, hcb, he]
      rw [← getLineEnd_eq, he]

/-- A concrete draw-routes detail used by the witnesses: only the weighted
route is present, as a bare MultiLineString geometry. -/
def routeDetailW : RouteDetail :=
  { fastest := none, safest := none,
    weighted := some (.geom (.multi [[(0, 0), (1, 2)], [(3, 1)]])),
    active := "" }

/-- Claim C7: whenever the selected active geometry yields at least one
non-empty line, `onDrawRoutes` fits the camera (padding 60, maxZoom 16) to
the inclusive bounding box `[[min lng, min lat], [max lng, max lat]]` over
all vertices of all extracted lines — every vertex lies inside the box and
each of its four sides is attained by some vertex — and places the single
endpoint marker at the last vertex of the last non-empty line. -/
theorem C7_draw_routes_fit_and_marker (d : RouteDetail) (m : MapState)
    (hne : ∃ l ∈ getLineCoords (chosenGeo d), l ≠ []) :
    ∃ b : (ℚ × ℚ) × (ℚ × ℚ),
      (onDrawRoutes d m).lastFitBounds = some (b, 60, 16) ∧
      (∀ l ∈ getLineCoords (chosenGeo d), ∀ c ∈ l,
        b.1.1 ≤ c.1 ∧ b.1.2 ≤ c.2 ∧ c.1 ≤ b.2.1 ∧ c.2 ≤ b.2.2) ∧
      (∃ l ∈ getLineCoords (chosenGeo d), ∃ c ∈ l, c.1 = b.1.1) ∧
      (∃ l ∈ getLineCoords (chosenGeo d), ∃ c ∈ l, c.2 = b.1.2) ∧
      (∃ l ∈ getLineCoords (chosenGeo d), ∃ c ∈ l, c.1 = b.2.1) ∧
      (∃ l ∈ getLineCoords (chosenGeo d), ∃ c ∈ l, c.2 = b.2.2) ∧
      (onDrawRoutes d m).routeEndMarker =
        (((getLineCoords (chosenGeo d)).filter
          fun l => !l.isEmpty).getLast?).bind List.getLast? := by
  obtain ⟨b, hfit, hcb, hmark⟩ := onDrawRoutes_fit d m hne
  cases hv : (getLineCoords (chosenGeo d)).flatten with
  | nil =>
    rw [computeBounds, hv] at hcb
    exact Option.noConfusion hcb
  | cons v vs =>
    rw [computeBounds, hv] at hcb
    injection hcb with hb
    subst hb
    have hmemf : ∀ c ∈ v :: vs, ∃ l ∈ getLineCoords (chosenGeo d), c ∈ l := by
      intro c h
      rw [← hv] at h
      exact List.mem_flatten.mp h
    obtain ⟨ha1, ha2, ha3, ha4⟩ := foldl_boundsStep_attained vs (v, v)
    refine ⟨_, hfit, ?_, ?_, ?_, ?_, ?_, hmark⟩
    · intro l hl c hc
      have hcf : c ∈ v :: vs := by
        rw [← hv]
        exact List.mem_flatten.mpr ⟨l, hl, hc⟩
      rcases List.mem_cons.mp hcf with h | h
      · subst h
        exact foldl_boundsStep_mono vs (c, c)
      · exact foldl_boundsStep_bounds vs (v, v) c h
    · rcases ha1 with h | ⟨c, hcvs, h⟩
      · obtain ⟨l, hl, hcl⟩ := hmemf v (List.mem_cons_self v vs)
        exact ⟨l, hl, v, hcl, h.symm⟩
      · obtain ⟨l, hl, hcl⟩ := hmemf c (List.mem_cons_of_mem v hcvs)
        exact ⟨l, hl, c, hcl, h.symm⟩
    · rcases ha2 with h | ⟨c, hcvs, h⟩
      · obtain ⟨l, hl, hcl⟩ := hmemf v (List.mem_cons_self v vs)
        exact ⟨l, hl, v, hcl, h.symm⟩
      · obtain ⟨l, hl, hcl⟩ := hmemf c (List.mem_cons_of_mem v hcvs)
        exact ⟨l, hl, c, hcl, h.symm⟩
    · rcases ha3 with h | ⟨c, hcvs, h⟩
      · obtain ⟨l, hl, hcl⟩ := hmemf v (List.mem_cons_self v vs)
        exact ⟨l, hl, v, hcl, h.symm⟩
      · obtain ⟨l, hl, hcl⟩ := hmemf c (List.mem_cons_of_mem v hcvs)
        exact ⟨l, hl, c, hcl, h.symm⟩
    · rcases ha4 with h | ⟨c, hcvs, h⟩
      · obtain ⟨l, hl, hcl⟩ := hmemf v (List.mem_cons_self v vs)
        exact ⟨l, hl, v, hcl, h.symm⟩
      · obtain ⟨l, hl, hcl⟩ := hmemf c (List.mem_cons_of_mem v hcvs)
        exact ⟨l, hl, c, hcl, h.symm⟩

/-- Witness for C7 at a concrete multi-line route. -/
theorem C7_witness :
    (∃ l ∈ getLineCoords (chosenGeo routeDetailW), l ≠ []) ∧
    (∃ b : (ℚ × ℚ) × (ℚ × ℚ),
      (onDrawRoutes routeDetailW mapStateW).lastFitBounds
          = some (b, 60, 16) ∧
      (∀ l ∈ getLineCoords (chosenGeo routeDetailW), ∀ c ∈ l,
        b.1.1 ≤ c.1 ∧ b.1.2 ≤ c.2 ∧ c.1 ≤ b.2.1 ∧ c.2 ≤ b.2.2) ∧
      (∃ l ∈ getLineCoords (chosenGeo routeDetailW), ∃ c ∈ l, c.1 = b.1.1) ∧
      (∃ l ∈ getLineCoords (chosenGeo routeDetailW), ∃ c ∈ l, c.2 = b.1.2) ∧
      (∃ l ∈ getLineCoords (chosenGeo routeDetailW), ∃ c ∈ l, c.1 = b.2.1) ∧
      (∃ l ∈ getLineCoords (chosenGeo routeDetailW), ∃ c ∈ l, c.2 = b.2.2) ∧
      (onDrawRoutes routeDetailW mapStateW).routeEndMarker =
        (((getLineCoords (chosenGeo routeDetailW)).filter
          fun l => !l.isEmpty).getLast?).bind List.getLast?) :=
  ⟨by decide, C7_draw_routes_fit_and_marker routeDetailW mapStateW (by decide)⟩

/-- Claim C8 is violated in the code: `onSetDestination` destructures
`e.detail` without a guard, so an `app:set-destination` event dispatched
without a detail throws a TypeError to its caller instead of being
swallowed. -/
theorem C8_set_destination_throws :
    ∃ msg, onSetDestination none mapStateW = .error msg :=
  ⟨_, rfl⟩

/-- Counterexample to C9 as stated: the two-point fit's zoom ceiling is 14
while the route fit's is 16, so the companion fit does NOT permit zooming
in further than the route fit — 14 > 16 is false. -/
theorem C9_counterexample :
    (onFitRoutePoints (some (0, 0)) (some (1, 1)) mapStateW).lastFitBounds
        = some (((0, 0), (1, 1)), 80, 14) ∧
    (onDrawRoutes routeDetailW mapStateW).lastFitBounds
        = some (((0, 0), (3, 2)), 60, 16) ∧
    ¬ (14 : ℚ) > 16 := by
  refine ⟨by decide, by decide, by norm_num⟩

/-- Claim C9 (corrected): the two-point companion fit uses a *stricter*
(lower) maximum-zoom ceiling than the route fit — 14 against 16 — so it
permits less zoom-in than the route fit, not more. -/
theorem C9_fit_points_ceiling (o t : ℚ × ℚ) (m m2 : MapState)
    (d : RouteDetail) (hne : ∃ l ∈ getLineCoords (chosenGeo d), l ≠ []) :
    ∃ bp br zp zr,
      (onFitRoutePoints (some o) (some t) m).lastFitBounds
          = some (bp, 80, zp) ∧
      (onDrawRoutes d m2).lastFitBounds = some (br, 60, zr) ∧
      zp < zr := by
  obtain ⟨b, hfit, -, -⟩ := onDrawRoutes_fit d m2 hne
  exact ⟨_, b, 14, 16, rfl, hfit, by norm_num⟩

/-- Witness for the corrected C9 at concrete inputs. -/
theorem C9_witness :
    (∃ l ∈ getLineCoords (chosenGeo routeDetailW), l ≠ []) ∧
    (∃ bp br zp zr,
      (onFitRoutePoints (some ((0 : ℚ), (0 : ℚ)))
        (some ((1 : ℚ), (1 : ℚ))) mapStateW).lastFitBounds
          = some (bp, 80, zp) ∧
      (onDrawRoutes routeDetailW mapStateW).lastFitBounds
          = some (br, 60, zr) ∧
      zp < zr) :=
  ⟨by decide, C9_fit_points_ceiling (0, 0) (1, 1) mapStateW mapStateW
    routeDetailW (by decide)⟩

/-- Claim C10: `pathArrayToGeoJSON` yields nothing for a missing path or a
path of fewer than two points; for a valid path it yields a LineString
Feature with every `[lat, lon]` pair swapped to `[lon, lat]`; and a route
whose converted geometry is absent never updates its map source data. -/
theorem C10_path_to_geojson :
    pathArrayToGeoJSON none = none ∧
    (∀ ps, ps.length < 2 → pathArrayToGeoJSON (some ps) = none) ∧
    (∀ ps, 2 ≤ ps.length → pathArrayToGeoJSON (some ps) =
      some (.feature (some (.line (ps.map fun p => (p.2, p.1)))))) ∧
    (∀ d m, d.fastest = none →
      (onDrawRoutes d m).fastestData = m.fastestData) ∧
    (∀ d m, d.safest = none →
      (onDrawRoutes d m).safestData = m.safestData) ∧
    (∀ d m, d.weighted = none →
      (onDrawRoutes d m).weightedData = m.weightedData) := by
  refine ⟨rfl, ?_, ?_, ?_, ?_, ?_⟩
  · intro ps h
    show (if ps.length < 2 then (none : Option Geo)
      else some (.feature (some (.line (ps.map fun p => (p.2, p.1)))))) = none
    rw [if_pos h]
  · intro ps h
    show (if ps.length < 2 then (none : Option Geo)
      else some (.feature (some (.line (ps.map fun p => (p.2, p.1))))))
      = some (.feature (some (.line (ps.map fun p => (p.2, p.1)))))
    rw [if_neg (by omega)]
  · intro d m h
    rw [onDrawRoutes]
    by_cases hie : (getLineCoords (chosenGeo d)).isEmpty = true
    · rw [if_pos hie]
      simp [h]
    · rw [if_neg hie]
      cases hcb : computeBounds (getLineCoords (chosenGeo d)) <;>
        cases hge : getLineEnd (getLineCoords (chosenGeo d)) <;>
        simp [h]
  · intro d m h
    rw [onDrawRoutes]
    by_cases hie : (getLineCoords (chosenGeo d)).isEmpty = true
    · rw [if_pos hie]
      simp [h]
    · rw [if_neg hie]
      cases hcb : computeBounds (getLineCoords (chosenGeo d)) <;>
        cases hge : getLineEnd (getLineCoords (chosenGeo d)) <;>
        simp [h]
  · intro d m h
    rw [onDrawRoutes]
    by_cases hie : (getLineCoords (chosenGeo d)).isEmpty = true
    · rw [if_pos hie]
      simp [h]
    · rw [if_neg hie]
      cases hcb : computeBounds (getLineCoords (chosenGeo d)) <;>
        cases hge : getLineEnd (getLineCoords (chosenGeo d)) <;>
        simp [h]

/-- Witness for C10 at concrete paths: a one-point path yields nothing, a
two-point path yields the swapped LineString, and an absent geometry
leaves the source data untouched. -/
theorem C10_witness :
    pathArrayToGeoJSON (some [((1 : ℚ), (2 : ℚ))]) = none ∧
    pathArrayToGeoJSON (some [((1 : ℚ), (2 : ℚ)), ((3 : ℚ), (4 : ℚ))]) =
      some (.feature (some (.line [((2 : ℚ), (1 : ℚ)),
        ((4 : ℚ), (3 : ℚ))]))) ∧
    (onDrawRoutes routeDetailW mapStateW).fastestData
        = mapStateW.fastestData := by
  refine ⟨C10_path_to_geojson.2.1 [(1, 2)] (by decide), ?_,
    C10_path_to_geojson.2.2.2.1 routeDetailW mapStateW rfl⟩
  rw [C10_path_to_geojson.2.2.1 [(1, 2), (3, 4)] (by decide)]
  rfl

end SafeStreets
